import Mathlib

/-!
Verification of the shuttle resource provisioner (`provisioner/src/lib.rs`)
against its natural-language specification.  The Rust functions are shallowly
embedded as executable Lean definitions; machine integers are `Nat` with
explicit reduction modulo `2^32`, fallible code returns `Except`/`Option`,
and external effects (SQL, AWS SDK calls, the filesystem) are explicit state
passing over small world structures, with call traces where the properties
talk about which requests were issued.
-/

namespace Prov

/-! ## SHA-256 over byte lists (embedding of the `sha2` crate as used by the code) -/

/-- Two to the thirty-two, the modulus for 32-bit words. -/
def M32 : Nat := 4294967296

/-- 32-bit right rotation on a word `x < 2^32`. -/
def rotr32 (x n : Nat) : Nat :=
  Nat.lor (x >>> n) ((x <<< (32 - n)) % M32)

/-- SHA-256 Ch function. -/
def ch32 (x y z : Nat) : Nat :=
  Nat.xor (Nat.land x y) (Nat.land (Nat.xor x 4294967295) z)

/-- SHA-256 Maj function. -/
def maj32 (x y z : Nat) : Nat :=
  Nat.xor (Nat.land x y) (Nat.xor (Nat.land x z) (Nat.land y z))

/-- SHA-256 big sigma 0. -/
def bSig0 (x : Nat) : Nat := Nat.xor (rotr32 x 2) (Nat.xor (rotr32 x 13) (rotr32 x 22))

/-- SHA-256 big sigma 1. -/
def bSig1 (x : Nat) : Nat := Nat.xor (rotr32 x 6) (Nat.xor (rotr32 x 11) (rotr32 x 25))

/-- SHA-256 small sigma 0. -/
def sSig0 (x : Nat) : Nat := Nat.xor (rotr32 x 7) (Nat.xor (rotr32 x 18) (x >>> 3))

/-- SHA-256 small sigma 1. -/
def sSig1 (x : Nat) : Nat := Nat.xor (rotr32 x 17) (Nat.xor (rotr32 x 19) (x >>> 10))

/-- The 64 SHA-256 round constants. -/
def K256 : List Nat :=
  [1116352408, 1899447441, 3049323471, 3921009573, 961987163,
   1508970993, 2453635748, 2870763221, 3624381080, 310598401,
   607225278, 1426881987, 1925078388, 2162078206, 2614888103,
   3248222580, 3835390401, 4022224774, 264347078, 604807628,
   770255983, 1249150122, 1555081692, 1996064986, 2554220882,
   2821834349, 2952996808, 3210313671, 3336571891, 3584528711,
   113926993, 338241895, 666307205, 773529912, 1294757372,
   1396182291, 1695183700, 1986661051, 2177026350, 2456956037,
   2730485921, 2820302411, 3259730800, 3345764771, 3516065817,
   3600352804, 4094571909, 275423344, 430227734, 506948616,
   659060556, 883997877, 958139571, 1322822218, 1537002063,
   1747873779, 1955562222, 2024104815, 2227730452, 2361852424,
   2428436474, 2756734187, 3204031479, 3329325298]

/-- The eight-word SHA-256 working state. -/
structure H8 where
  a : Nat
  b : Nat
  c : Nat
  d : Nat
  e : Nat
  f : Nat
  g : Nat
  h : Nat

/-- The SHA-256 initial hash value. -/
def initH : H8 :=
  ⟨1779033703, 3144134277, 1013904242, 2773480762,
   1359893119, 2600822924, 528734635, 1541459225⟩

/-- One SHA-256 compression round for the constant-and-schedule pair `kw`. -/
def sha256Round (st : H8) (kw : Nat × Nat) : H8 :=
  let t1 := (st.h + bSig1 st.e + ch32 st.e st.f st.g + kw.1 + kw.2) % M32
  let t2 := (bSig0 st.a + maj32 st.a st.b st.c) % M32
  ⟨(t1 + t2) % M32, st.a, st.b, st.c, (st.d + t1) % M32, st.e, st.f, st.g⟩

/-- Big-endian 32-bit words from a byte list (leftover bytes are dropped;
the input is always a whole number of words). -/
def wordsOfBytes : List Nat → List Nat
  | a :: b :: c :: d :: rest =>
      (((a * 256 + b) * 256 + c) * 256 + d) :: wordsOfBytes rest
  | _ => []

/-- Iterate a function `n` times. -/
def iterate (f : α → α) : Nat → α → α
  | 0, x => x
  | n + 1, x => iterate f n (f x)

/-- Extend the message schedule by one word. -/
def scheduleStep (ws : List Nat) : List Nat :=
  let n := ws.length
  ws ++ [(ws.getD (n - 16) 0 + sSig1 (ws.getD (n - 2) 0) + ws.getD (n - 7) 0
          + sSig0 (ws.getD (n - 15) 0)) % M32]

/-- Full 64-word message schedule from a 16-word block. -/
def schedule (ws : List Nat) : List Nat := iterate scheduleStep 48 ws

/-- SHA-256 compression of one 64-byte block into the running state. -/
def compressBlock (st : H8) (block : List Nat) : H8 :=
  let ws := schedule (wordsOfBytes block)
  let t := (K256.zip ws).foldl sha256Round st
  ⟨(st.a + t.a) % M32, (st.b + t.b) % M32, (st.c + t.c) % M32, (st.d + t.d) % M32,
   (st.e + t.e) % M32, (st.f + t.f) % M32, (st.g + t.g) % M32, (st.h + t.h) % M32⟩

/-- Big-endian byte expansion of `n` into `k` bytes. -/
def beBytes : Nat → Nat → List Nat
  | 0, _ => []
  | k + 1, n => beBytes k (n / 256) ++ [n % 256]

/-- SHA-256 padding: append `0x80`, zero bytes, then the 64-bit bit length. -/
def padMsg (msg : List Nat) : List Nat :=
  let len := msg.length
  let zeros := (55 + 64 - len % 64) % 64
  msg ++ [0x80] ++ List.replicate zeros 0 ++ beBytes 8 (8 * len)

/-- Split a byte list into 64-byte blocks (fuel-driven, fuel `≥` length). -/
def blocksGo : Nat → List Nat → List (List Nat)
  | 0, _ => []
  | _ + 1, [] => []
  | fuel + 1, l => l.take 64 :: blocksGo fuel (l.drop 64)

/-- Split a padded message into its 64-byte blocks. -/
def blocks (l : List Nat) : List (List Nat) := blocksGo l.length l

/-- The 32 digest bytes of a final state. -/
def digestBytes (st : H8) : List Nat :=
  beBytes 4 st.a ++ beBytes 4 st.b ++ beBytes 4 st.c ++ beBytes 4 st.d ++
  beBytes 4 st.e ++ beBytes 4 st.f ++ beBytes 4 st.g ++ beBytes 4 st.h

/-- SHA-256 of a byte list, as 32 bytes. -/
def sha256 (msg : List Nat) : List Nat :=
  digestBytes ((blocks (padMsg msg)).foldl compressBlock initH)

/-! ## URL-safe unpadded Base64 (embedding of `base64ct::Base64UrlUnpadded`) -/

/-- The URL-safe Base64 alphabet as a character list. -/
def alphabetChars : List Char :=
  "ABCDEFGHIJKLMNOPQRSTUVWXYZabcdefghijklmnopqrstuvwxyz0123456789-_".data

/-- Character for a sextet value. -/
def b64ch (n : Nat) : Char := alphabetChars.getD n 'A'

/-- Sextet value of an alphabet character. -/
def b64chVal (c : Char) : Nat := alphabetChars.indexOf c

/-- URL-safe unpadded Base64 encoding of a byte list, as characters. -/
def b64url : List Nat → List Char
  | [] => []
  | [a] => [b64ch (a / 4), b64ch (a % 4 * 16)]
  | [a, b] => [b64ch (a / 4), b64ch (a % 4 * 16 + b / 16), b64ch (b % 16 * 4)]
  | a :: b :: c :: rest =>
      b64ch (a / 4) :: b64ch (a % 4 * 16 + b / 16) :: b64ch (b % 16 * 4 + c / 64) ::
      b64ch (c % 64) :: b64url rest

/-- Decoder used to establish injectivity of `b64url` on byte lists. -/
def b64dec : List Char → List Nat
  | w :: x :: y :: z :: rest =>
      (b64chVal w * 4 + b64chVal x / 16) :: (b64chVal x % 16 * 16 + b64chVal y / 4) ::
      (b64chVal y % 4 * 64 + b64chVal z) :: b64dec rest
  | [w, x] => [b64chVal w * 4 + b64chVal x / 16]
  | [w, x, y] => [b64chVal w * 4 + b64chVal x / 16, b64chVal x % 16 * 16 + b64chVal y / 4]
  | _ => []

/-! ## UTF-8 and the derived project token -/

/-- UTF-8 encoding of one character as bytes. -/
def utf8Char (c : Char) : List Nat :=
  let n := c.toNat
  if n < 128 then [n]
  else if n < 2048 then [192 + n / 64, 128 + n % 64]
  else if n < 65536 then [224 + n / 4096, 128 + n / 64 % 64, 128 + n % 64]
  else [240 + n / 262144, 128 + n / 4096 % 64, 128 + n / 64 % 64, 128 + n % 64]

/-- UTF-8 bytes of a string. -/
def utf8Bytes (s : String) : List Nat :=
  s.data.foldr (fun c acc => utf8Char c ++ acc) []

/-- Embedding of `get_prefix`: the URL-safe unpadded Base64 encoding of the
SHA-256 digest of the project name's UTF-8 bytes.  (Renamed from the Rust
`get_prefix`; `pfx` stands for that identifier throughout this file.) -/
def getPfx (project_name : String) : String :=
  String.mk (b64url (sha256 (utf8Bytes project_name)))

/-! ## Claims, scopes and statuses (RPC facade, claim C2) -/

/-- Modelled from the spec: a scope is a named capability, and `ResourcesWrite`
gates all provisioning calls (`shuttle_common::claims::Scope` is outside the
sources; other scopes are carried abstractly). -/
inductive Scope where
  | ResourcesWrite
  | OtherScope (n : Nat)
deriving DecidableEq

/-- Modelled from the spec: a claim carries a set of scopes, here a list
(`shuttle_common::claims::Claim` is outside the sources). -/
structure Claim where
  scopes : List Scope

/-- Status codes the service produces. -/
inductive StatusCode where
  | internal
  | permissionDenied
deriving DecidableEq

/-- A gRPC-style status: code plus message. -/
structure Status where
  code : StatusCode
  message : String
deriving DecidableEq

/-- `Status::internal(msg)`. -/
def Status.internal (m : String) : Status := ⟨.internal, m⟩

/-- `Status::permission_denied(msg)`. -/
def Status.permissionDenied (m : String) : Status := ⟨.permissionDenied, m⟩

/-- A tonic request: the extension map is read only for a `Claim`, so it is
modelled as the optional claim together with the inner message. -/
structure Request (α : Type) where
  claim : Option Claim
  inner : α

/-- Embedding of `verify_claim`: missing claim is an internal status, missing
`ResourcesWrite` scope is permission-denied. -/
def verify_claim (request : Request α) : Except Status Unit :=
  match request.claim with
  | none => .error (Status.internal "could not get claim")
  | some claim =>
      if Scope.ResourcesWrite ∈ claim.scopes then .ok ()
      else .error (Status.permissionDenied "does not have resource allocation scope")

/-- The provisioner's internal error kinds (from `error.rs` plus the variants
used by `lib.rs`), with sources carried as display strings. -/
inductive Error where
  | CreateRole (m : String)
  | UpdateRole (m : String)
  | DeleteRole (m : String)
  | CreateDB (m : String)
  | DeleteDB (m : String)
  | UnexpectedSqlx (m : String)
  | UnexpectedMongodb (m : String)
  | CreateRDSInstance (m : String)
  | DescribeRDSInstance (m : String)
  | CreateIAMPolicy (m : String)
  | DeleteIAMPolicy (m : String)
  | CreateIAMUser (m : String)
  | DeleteIAMUser (m : String)
  | AttachUserPolicy (m : String)
  | DetachUserPolicy (m : String)
  | CreateAccessKey (m : String)
  | DeleteAccessKey (m : String)
  | GetAccessKey (m : String)
  | GetAccessKeyId (m : String)
  | GetSecretAccessKey (m : String)
  | GetIAMIdentityKeys (m : String)
  | GetCallerIdentity (m : String)
  | GetAccount (m : String)
  | GetRegion (m : String)
  | DeleteDynamoDBTableError (m : String)
  | Plain (m : String)
  | Io (m : String)
deriving DecidableEq

/-- `impl From<Error> for Status`: every driver error becomes one opaque
internal status. -/
def statusOfError (_ : Error) : Status :=
  Status.internal "failed to provision a database"

/-- `shared::Engine` oneof. -/
inductive SharedEngine where
  | postgres
  | mongodb
deriving DecidableEq

/-- `aws_rds::Engine` oneof. -/
inductive RdsEngine where
  | postgres
  | mysql
  | mariadb
deriving DecidableEq

/-- `database_request::DbType` with the inner engine oneof present. -/
inductive DbType where
  | shared (e : SharedEngine)
  | awsRds (e : RdsEngine)
deriving DecidableEq

/-- `DatabaseRequest` payload. -/
structure DatabaseRequest where
  project_name : String
  db_type : DbType

/-- `DynamoDbRequest` payload. -/
structure DynamoDbRequest where
  project_name : String

/-- `DatabaseResponse` connection tuple. -/
structure DatabaseResponse where
  engine : String
  username : String
  password : String
  database_name : String
  address_private : String
  address_public : String
  port : String
deriving DecidableEq

/-- `DatabaseDeletionResponse` (empty message). -/
structure DatabaseDeletionResponse where
deriving DecidableEq

/-- `DynamoDbResponse` credentials. -/
structure DynamoDbResponse where
  pfx : String
  aws_access_key_id : String
  aws_secret_access_key : String
  aws_default_region : String
  endpoint : Option String
deriving DecidableEq

/-- `DynamoDbDeletionResponse` (empty message). -/
structure DynamoDbDeletionResponse where
deriving DecidableEq

/-- Dispatch of `provision_database` on the `db_type` oneof, with the two
drivers abstracted as state transformers over a world `σ`. -/
def dispatch_database (rsdb : String → SharedEngine → σ → Except Error DatabaseResponse × σ)
    (rrds : String → RdsEngine → σ → Except Error DatabaseResponse × σ)
    (req : DatabaseRequest) (s : σ) : Except Error DatabaseResponse × σ :=
  match req.db_type with
  | .shared e => rsdb req.project_name e s
  | .awsRds e => rrds req.project_name e s

/-- Dispatch of `delete_database` on the `db_type` oneof. -/
def dispatch_database_delete
    (dsdb : String → SharedEngine → σ → Except Error DatabaseDeletionResponse × σ)
    (drds : String → RdsEngine → σ → Except Error DatabaseDeletionResponse × σ)
    (req : DatabaseRequest) (s : σ) : Except Error DatabaseDeletionResponse × σ :=
  match req.db_type with
  | .shared e => dsdb req.project_name e s
  | .awsRds e => drds req.project_name e s

/-- Embedding of the `provision_database` RPC handler: verify the claim, then
dispatch; driver errors are converted by the `From<Error> for Status` impl. -/
def provision_database
    (rsdb : String → SharedEngine → σ → Except Error DatabaseResponse × σ)
    (rrds : String → RdsEngine → σ → Except Error DatabaseResponse × σ)
    (request : Request DatabaseRequest) (s : σ) : Except Status DatabaseResponse × σ :=
  match verify_claim request with
  | .error st => (.error st, s)
  | .ok _ =>
      let p := dispatch_database rsdb rrds request.inner s
      (p.1.mapError statusOfError, p.2)

/-- Embedding of the `delete_database` RPC handler. -/
def delete_database
    (dsdb : String → SharedEngine → σ → Except Error DatabaseDeletionResponse × σ)
    (drds : String → RdsEngine → σ → Except Error DatabaseDeletionResponse × σ)
    (request : Request DatabaseRequest) (s : σ) :
    Except Status DatabaseDeletionResponse × σ :=
  match verify_claim request with
  | .error st => (.error st, s)
  | .ok _ =>
      let p := dispatch_database_delete dsdb drds request.inner s
      (p.1.mapError statusOfError, p.2)

/-- Embedding of the `provision_dynamo_db` RPC handler. -/
def provision_dynamo_db
    (rdyn : String → σ → Except Error DynamoDbResponse × σ)
    (request : Request DynamoDbRequest) (s : σ) : Except Status DynamoDbResponse × σ :=
  match verify_claim request with
  | .error st => (.error st, s)
  | .ok _ =>
      let p := rdyn request.inner.project_name s
      (p.1.mapError statusOfError, p.2)

/-- Embedding of the `delete_dynamo_db` RPC handler. -/
def delete_dynamo_db
    (ddyn : String → σ → Except Error DynamoDbDeletionResponse × σ)
    (request : Request DynamoDbRequest) (s : σ) :
    Except Status DynamoDbDeletionResponse × σ :=
  match verify_claim request with
  | .error st => (.error st, s)
  | .ok _ =>
      let p := ddyn request.inner.project_name s
      (p.1.mapError statusOfError, p.2)

/-! ## Shared Postgres / MongoDB driver (claims C3 and C6) -/

/-- State of the shared Postgres cluster: the existing role names and
database names, as observed by the `pg_roles` / `pg_database` queries. -/
structure PgWorld where
  roles : List String
  dbs : List String

/-- State of the shared MongoDB cluster: pairs of database name and user. -/
structure MongoWorld where
  users : List (String × String)

/-- One issued SQL statement together with its bound parameters. -/
structure SqlQuery where
  text : String
  binds : List String
deriving DecidableEq

/-- Configuration captured by `MyProvisioner::new`. -/
structure ProvConfig where
  fqdn : String
  internal_pg_address : String
  internal_mongodb_address : String

/-- Embedding of `shared_pg_role`: query `pg_roles` for the derived role; if
it is absent issue `CREATE ROLE`, otherwise issue `ALTER ROLE` with the fresh
password.  The RNG draw of `generate_password` is the `password` argument,
and the issued SQL is returned as a trace. -/
def shared_pg_role (w : PgWorld) (project_name password : String) :
    (String × String) × PgWorld × List SqlQuery :=
  let username := "user-" ++ project_name
  let select : SqlQuery := ⟨"SELECT rolname FROM pg_roles WHERE rolname = $1", [username]⟩
  if username ∈ w.roles then
    ((username, password), w,
     [select, ⟨"ALTER ROLE \"" ++ username ++ "\" WITH LOGIN PASSWORD \x27"
                ++ password ++ "\x27", []⟩])
  else
    ((username, password), { w with roles := username :: w.roles },
     [select, ⟨"CREATE ROLE \"" ++ username ++ "\" WITH LOGIN PASSWORD \x27"
                ++ password ++ "\x27", []⟩])

/-- Embedding of `shared_pg`: query `pg_database` for the derived database;
if absent create it and run the three `REVOKE` statements on it. -/
def shared_pg (w : PgWorld) (project_name username : String) :
    String × PgWorld × List SqlQuery :=
  let database_name := "db-" ++ project_name
  let select : SqlQuery := ⟨"SELECT datname FROM pg_database WHERE datname = $1",
                            [database_name]⟩
  if database_name ∈ w.dbs then
    (database_name, w, [select])
  else
    (database_name, { w with dbs := database_name :: w.dbs },
     [select,
      ⟨"CREATE DATABASE \"" ++ database_name ++ "\" OWNER \x27" ++ username ++ "\x27", []⟩,
      ⟨"REVOKE ALL ON pg_user FROM public;", []⟩,
      ⟨"REVOKE ALL ON pg_roles FROM public;", []⟩,
      ⟨"REVOKE ALL ON pg_database FROM public;", []⟩])

/-- Embedding of `shared_mongodb`: `createUser` on the target database; a
user-already-exists failure (error code 51003) is recovered by `updateUser`
with the fresh password. -/
def shared_mongodb (w : MongoWorld) (project_name database_name password : String) :
    (String × String) × MongoWorld :=
  let username := "user-" ++ project_name
  if (database_name, username) ∈ w.users then
    ((username, password), w)
  else
    ((username, password), { w with users := (database_name, username) :: w.users })

/-- The two shared-cluster states together. -/
structure SharedDbWorld where
  pg : PgWorld
  mongo : MongoWorld

/-- Embedding of `request_shared_db`: dispatch on the shared engine and build
the connection tuple, also returning the SQL trace of the Postgres arm. -/
def request_shared_db (cfg : ProvConfig) (w : SharedDbWorld) (project_name : String)
    (engine : SharedEngine) (password : String) :
    DatabaseResponse × SharedDbWorld × List SqlQuery :=
  match engine with
  | .postgres =>
      let r1 := shared_pg_role w.pg project_name password
      let r2 := shared_pg r1.2.1 project_name r1.1.1
      (⟨"postgres", r1.1.1, r1.1.2, r2.1, cfg.internal_pg_address, cfg.fqdn, "5432"⟩,
       { w with pg := r2.2.1 }, r1.2.2 ++ r2.2.2)
  | .mongodb =>
      let database_name := "mongodb-" ++ project_name
      let r1 := shared_mongodb w.mongo project_name database_name password
      (⟨"mongodb", r1.1.1, r1.1.2, database_name, cfg.internal_mongodb_address,
        cfg.fqdn, "27017"⟩,
       { w with mongo := r1.2 }, [])

/-- Embedding of `delete_pg` over an oracle giving each SQL statement's
outcome: drop the database (a failure is mapped to the `DeleteRole` kind),
then drop the role (a failure is mapped to the `DeleteDB` kind); the trace of
issued statements is returned alongside the result. -/
def delete_pg (exec : String → Except String Unit) (project_name : String) :
    Except Error Unit × List String :=
  let database_name := "db-" ++ project_name
  let role_name := "user-" ++ project_name
  let drop_db_query := "DROP DATABASE \"" ++ database_name ++ "\";"
  match exec drop_db_query with
  | .error e => (.error (.DeleteRole e), [drop_db_query])
  | .ok _ =>
      let drop_role_query := "DROP ROLE IF EXISTS \"" ++ role_name ++ "\""
      match exec drop_role_query with
      | .error e => (.error (.DeleteDB e), [drop_db_query, drop_role_query])
      | .ok _ => (.ok (), [drop_db_query, drop_role_query])

/-! ## Access-key persistence and IAM identity keys (claims C4, C9, C10) -/

/-- Split a character list at every newline, keeping the fragments (the
semantics of `String::split` at a newline; the empty input has one empty
fragment, like `splitOn`). -/
def splitNlChars : List Char → List (List Char)
  | [] => [[]]
  | c :: cs =>
      let r := splitNlChars cs
      if c = '\n' then [] :: r
      else (c :: r.headD []) :: r.tail

/-- Drop one trailing carriage return. -/
def stripCRChars (l : List Char) : List Char :=
  if l.getLast? = some '\r' then l.dropLast else l

/-- Rust `BufRead::lines`: every fragment before a newline terminator has a
trailing carriage return stripped; a final unterminated fragment is kept
as-is; a trailing newline (or an empty file) yields no final line. -/
def rustLines (s : String) : List String :=
  match (splitNlChars s.data).reverse with
  | [] => []
  | last :: revInit =>
      let front := (revInit.reverse.map stripCRChars).map String.mk
      if last = [] then front else front ++ [String.mk last]

/-- The per-request handler data: the derived token and the state directory
(`DynamoDBHandler`'s `prefix` and `provisioner_state`). -/
structure HandlerCfg where
  pfx : String
  state_dir : String

/-- Embedding of `get_access_key_file_name`: plain string concatenation of
the state directory, the token and `.txt`. -/
def get_access_key_file_name (h : HandlerCfg) : String :=
  h.state_dir ++ h.pfx ++ ".txt"

/-- Embedding of `get_iam_identity_user_name`. -/
def get_iam_identity_user_name (h : HandlerCfg) : String :=
  h.pfx ++ "-dynamo-user"

/-- The world visible to the DynamoDB orchestrator: the filesystem, the access
keys IAM would mint next (the `CreateAccessKey` results, in order), the keys
currently live in IAM, the IAM users and policies, policy attachments, the
STS account and the configured region. -/
structure DynamoWorld where
  files : String → Option String
  keySupply : List (String × String)
  iamLiveKeys : List (String × String)
  iamUsers : List String
  iamPolicies : List String
  attachments : List (String × String)
  stsAccount : String
  region : Option String

/-- Embedding of `get_saved_access_key`: open the file (a missing file is
`none`), read the first two lines, and return them; fewer than two lines is
also `none`. -/
def get_saved_access_key (h : HandlerCfg) (w : DynamoWorld) : Option (String × String) :=
  match w.files (get_access_key_file_name h) with
  | none => none
  | some contents =>
      match rustLines contents with
      | id :: secret :: _ => some (id, secret)
      | _ => none

/-- Embedding of `save_access_key`: truncating write of the ID and secret as
two newline-separated lines. -/
def save_access_key (h : HandlerCfg) (w : DynamoWorld)
    (access_key_id secret_access_key : String) : DynamoWorld :=
  { w with files := fun n => if n = get_access_key_file_name h
      then some (access_key_id ++ "\n" ++ secret_access_key) else w.files n }

/-- Embedding of `delete_saved_access_key`: `remove_file`, failing with an
I/O error when the file does not exist. -/
def delete_saved_access_key (h : HandlerCfg) (w : DynamoWorld) :
    Except Error DynamoWorld :=
  match w.files (get_access_key_file_name h) with
  | none => .error (.Io "No such file or directory")
  | some _ => .ok { w with files := fun n =>
      if n = get_access_key_file_name h then none else w.files n }

/-- Embedding of `get_iam_identity_keys`: return the saved pair if the file
is readable; otherwise call `CreateAccessKey` (consuming the next key from
the IAM supply, which also becomes live in IAM), persist the pair to the
file, and return it. -/
def get_iam_identity_keys (h : HandlerCfg) (w : DynamoWorld) :
    Except Error ((String × String) × DynamoWorld) :=
  match get_saved_access_key h w with
  | some pair => .ok (pair, w)
  | none =>
      match w.keySupply with
      | [] => .error (.CreateAccessKey "failed to create access key")
      | (id, secret) :: rest =>
          let w1 := { w with
                      keySupply := rest,
                      iamLiveKeys := (get_iam_identity_user_name h, id) :: w.iamLiveKeys }
          .ok ((id, secret), save_access_key h w1 id secret)

/-- Embedding of `delete_access_key`: learn the key ID via
`get_iam_identity_keys`, delete that key from IAM, then remove the local
file. -/
def delete_access_key (h : HandlerCfg) (w : DynamoWorld) : Except Error DynamoWorld :=
  match get_iam_identity_keys h w with
  | .error e => .error e
  | .ok ((access_key_id, _), w1) =>
      if (get_iam_identity_user_name h, access_key_id) ∈ w1.iamLiveKeys then
        delete_saved_access_key h
          { w1 with iamLiveKeys :=
              w1.iamLiveKeys.erase (get_iam_identity_user_name h, access_key_id) }
      else .error (.DeleteAccessKey "NoSuchEntity")

/-- Embedding of `create_dynamodb_policy`: `EntityAlreadyExists` is success,
so in this world the step is a pure state update. -/
def create_dynamodb_policy (h : HandlerCfg) (w : DynamoWorld) : DynamoWorld :=
  let policy_name := h.pfx ++ "-dynamo-policy"
  if policy_name ∈ w.iamPolicies then w
  else { w with iamPolicies := policy_name :: w.iamPolicies }

/-- Embedding of `create_iam_identity`: `EntityAlreadyExists` is success. -/
def create_iam_identity (h : HandlerCfg) (w : DynamoWorld) : DynamoWorld :=
  let user := get_iam_identity_user_name h
  if user ∈ w.iamUsers then w
  else { w with iamUsers := user :: w.iamUsers }

/-- Embedding of `get_policy_arn` (via STS `GetCallerIdentity`). -/
def get_policy_arn (h : HandlerCfg) (w : DynamoWorld) : String :=
  "arn:aws:iam::" ++ w.stsAccount ++ ":policy/" ++ (h.pfx ++ "-dynamo-policy")

/-- Embedding of `attach_user_policy`. -/
def attach_user_policy (h : HandlerCfg) (w : DynamoWorld) : DynamoWorld :=
  { w with attachments :=
      (get_iam_identity_user_name h, get_policy_arn h w) :: w.attachments }

/-- The first three sequential steps of `request_dynamodb`: create the
policy, create the user, attach the policy. -/
def dynPrep (h : HandlerCfg) (w : DynamoWorld) : DynamoWorld :=
  attach_user_policy h (create_iam_identity h (create_dynamodb_policy h w))

/-- Embedding of `request_dynamodb`: derive the token, create policy and
user, attach, obtain the identity keys, resolve the region, and build the
response. -/
def request_dynamodb (state_dir : String) (w : DynamoWorld) (project_name : String) :
    Except Error (DynamoDbResponse × DynamoWorld) :=
  let pfx := getPfx project_name
  let h : HandlerCfg := ⟨pfx, state_dir⟩
  match get_iam_identity_keys h (dynPrep h w) with
  | .error e => .error e
  | .ok ((id, secret), w4) =>
      match w4.region with
      | none => .error (.GetRegion "empty region")
      | some region => .ok (⟨pfx, id, secret, region, none⟩, w4)

/-- A well-formed access-key pair: the pair survives the two-line file
round-trip (no embedded newline, the ID does not end in a carriage return,
and the secret is nonempty). -/
def WfKey (k : String × String) : Prop :=
  '\n' ∉ k.1.data ∧ k.1.data.getLast? ≠ some '\r' ∧ '\n' ∉ k.2.data ∧ k.2.data ≠ []

/-! ## Prefix-scoped DynamoDB table cleanup (claim C5) -/

/-- Calls issued to DynamoDB during table cleanup. -/
inductive DynEv where
  | listTables (cursor : String)
  | deleteTable (name : String)
deriving DecidableEq

/-- Rust `str::starts_with`, as character-list prefixing. -/
def strStarts (s pat : String) : Bool := pat.data.isPrefixOf s.data

/-- DynamoDB `ListTables` with `exclusive_start_table_name`: up to `limit`
table names strictly after the cursor (the stored listing is kept in
lexicographic order), and `last_evaluated_table_name` present exactly when
further names remain. -/
def listTablesPage (tables : List String) (cursor : String) (limit : Nat) :
    List String × Option String :=
  let after := tables.filter (fun n => cursor < n)
  (after.take limit, if after.length ≤ limit then none else (after.take limit).getLast?)

/-- DynamoDB `DeleteTable`: fails on a missing table. -/
def delete_table (tables : List String) (name : String) : Except String (List String) :=
  if name ∈ tables then .ok (tables.erase name) else .error "ResourceNotFoundException"

/-- The inner `for` loop of `delete_dynamodb_tables_by_prefix`: delete each
returned name until one does not begin with the token, which breaks the outer
loop (third component `true`). -/
def procPage (pfx : String) : List String → List String →
    Except String (List String × List DynEv × Bool)
  | [], tables => .ok (tables, [], false)
  | n :: rest, tables =>
      if strStarts n pfx = false then .ok (tables, [], true)
      else
        match delete_table tables n with
        | .error e => .error e
        | .ok t1 =>
            match procPage pfx rest t1 with
            | .error e => .error e
            | .ok (t2, evs, brk) => .ok (t2, .deleteTable n :: evs, brk)

/-- The outer `while let` loop of `delete_dynamodb_tables_by_prefix`,
fuel-driven; the cursor is threaded exactly as in the source (the next
cursor is recorded from the listing before the page is processed). -/
def delLoop (pfx : String) (limit : Nat) : Nat → Option String → List String →
    Except String (List String × List DynEv)
  | _, none, tables => .ok (tables, [])
  | 0, some _, _ => .error "out of fuel"
  | fuel + 1, some cursor, tables =>
      let page := listTablesPage tables cursor limit
      match procPage pfx page.1 tables with
      | .error e => .error e
      | .ok (t1, evs, brk) =>
          if brk then .ok (t1, .listTables cursor :: evs)
          else
            match delLoop pfx limit fuel page.2 t1 with
            | .error e => .error e
            | .ok (t2, evs2) => .ok (t2, .listTables cursor :: (evs ++ evs2))

/-- Embedding of `delete_dynamodb_tables_by_prefix`: seed the cursor with the
token itself, run the loop, then attempt one final unconditional
`DeleteTable` of the bare token with any error ignored. -/
def delete_dynamodb_tables_by_pfx (tables : List String) (pfx : String)
    (limit fuel : Nat) : Except String (List String × List DynEv) :=
  match delLoop pfx limit fuel (some pfx) tables with
  | .error e => .error e
  | .ok (t, evs) => .ok (t.erase pfx, evs ++ [.deleteTable pfx])

/-! ## AWS RDS driver (claims C7 and C8) -/

/-- The AWS SDK error wrapper: a service error or one of the non-service
failure variants (construction, timeout, dispatch, response). -/
inductive SdkError (ε : Type) where
  | serviceError (e : ε)
  | constructionFailure (m : String)
  | timeoutError (m : String)
  | dispatchFailure (m : String)
  | responseError (m : String)
deriving DecidableEq

/-- `ModifyDBInstanceError` with its not-found fault distinguished. -/
inductive ModifyDBInstanceError where
  | dbInstanceNotFoundFault (m : String)
  | other (m : String)
deriving DecidableEq

/-- `DeleteDBInstanceError` with its not-found fault distinguished. -/
inductive DeleteDBInstanceError where
  | dbInstanceNotFoundFault (m : String)
  | other (m : String)
deriving DecidableEq

/-- `is_db_instance_not_found_fault`. -/
def DeleteDBInstanceError.is_not_found : DeleteDBInstanceError → Bool
  | .dbInstanceNotFoundFault _ => true
  | .other _ => false

/-- Display string of a delete service error. -/
def DeleteDBInstanceError.display : DeleteDBInstanceError → String
  | .dbInstanceNotFoundFault m => m
  | .other m => m

/-- Modelled from the spec: the `aws_rds::Engine` display strings
(`shuttle_proto` is outside the sources; the spec fixes
postgres/mysql/mariadb). -/
def RdsEngine.toStr : RdsEngine → String
  | .postgres => "postgres"
  | .mysql => "mysql"
  | .mariadb => "mariadb"

/-- Embedding of `engine_to_port`. -/
def engine_to_port : RdsEngine → String
  | .postgres => "5432"
  | .mariadb => "3306"
  | .mysql => "3306"

/-- Embedding of `delete_aws_rds` over an oracle for the `DeleteDBInstance`
call on the derived identifier: a service error that is not the not-found
fault becomes a `Plain` error; everything else (success, the not-found
fault, and every non-service SDK failure) falls through to success. -/
def delete_aws_rds (project_name : String) (engine : RdsEngine)
    (rds_delete : String → Except (SdkError DeleteDBInstanceError) Unit) :
    Except Error DatabaseDeletionResponse :=
  let instance_name := project_name ++ "-" ++ engine.toStr
  let delete_result := rds_delete instance_name
  match delete_result with
  | .error (.serviceError err) =>
      if err.is_not_found = false then
        .error (.Plain ("got unexpected error from AWS RDS service: " ++ err.display))
      else
        .ok ⟨⟩
  | _ => .ok ⟨⟩

/-- The RDS constants of the source. -/
def AWS_RDS_CLASS : String := "db.t4g.micro"

/-- Master user name constant. -/
def MASTER_USERNAME : String := "master"

/-- RDS subnet group constant. -/
def RDS_SUBNET_GROUP : String := "shuttle_rds"

/-- A described DB instance, with the fields the code reads. -/
structure DbInstanceM where
  db_instance_status : String
  endpoint_address : Option String
  master_username : Option String
  db_name : Option String
deriving DecidableEq

/-- The parameters of a `CreateDBInstance` call. -/
structure CreateParams where
  db_instance_identifier : String
  master_username : String
  master_user_password : String
  engine : String
  db_instance_class : String
  allocated_storage : Int
  backup_retention_period : Int
  publicly_accessible : Bool
  db_name : String
  db_subnet_group_name : Option String
deriving DecidableEq

/-- The RDS cloud as an oracle: the outcome of the modify call, the outcome
of a create call, and the stream of successive describe results. -/
structure RdsEnv where
  modifyResult : String → String → Except (SdkError ModifyDBInstanceError) Unit
  createResult : CreateParams → Except String Unit
  describes : Nat → Except String DbInstanceM

/-- Calls issued to RDS. -/
inductive RdsEv where
  | modify (name pw : String)
  | create (p : CreateParams)
  | describe (name : String)
deriving DecidableEq

/-- Outcome of the RDS provisioning flow: success, a driver error, a panic
(an `expect` in the source), or non-termination of the polling loop within
the fuel. -/
inductive RdsOutcome (α : Type) where
  | ok (a : α)
  | fail (e : Error)
  | panicked (m : String)
  | hang
deriving DecidableEq

/-- Whether an event is a `CreateDBInstance` call. -/
def isCreateEv : RdsEv → Bool
  | .create _ => true
  | _ => false

/-- Embedding of `wait_for_instance`: describe once a second until the
status matches.  The describe stream index is threaded; fuel bounds the
unbounded source loop. -/
def wait_for_instance (env : RdsEnv) (name wait_for : String) :
    Nat → Nat → RdsOutcome (DbInstanceM × Nat) × List RdsEv
  | 0, _ => (.hang, [])
  | fuel + 1, idx =>
      match env.describes idx with
      | .error e => (.fail (.DescribeRDSInstance e), [.describe name])
      | .ok inst =>
          if inst.db_instance_status = wait_for then (.ok (inst, idx + 1), [.describe name])
          else
            let r := wait_for_instance env name wait_for fuel (idx + 1)
            (r.1, .describe name :: r.2)

/-- The tail of `request_aws_rds` after the transient status is observed:
wait for `available` and build the connection tuple from the final
description (the `expect`s of the source are panics). -/
def rds_finish (env : RdsEnv) (instance_name : String) (engine : RdsEngine)
    (password : String) (fuel idx : Nat) : RdsOutcome DatabaseResponse × List RdsEv :=
  let r := wait_for_instance env instance_name "available" fuel idx
  match r.1 with
  | .ok (inst, _) =>
      match inst.endpoint_address with
      | none => (.panicked "instance to have an endpoint", r.2)
      | some address =>
          match inst.master_username with
          | none => (.panicked "instance to have a username", r.2)
          | some username =>
              match inst.db_name with
              | none => (.panicked "instance to have a default database", r.2)
              | some database_name =>
                  (.ok ⟨engine.toStr, username, password, database_name, address,
                        address, engine_to_port engine⟩, r.2)
  | .fail e => (.fail e, r.2)
  | .panicked m => (.panicked m, r.2)
  | .hang => (.hang, r.2)

/-- Continuation after the first wait (for `resetting-master-credentials` or
`creating`): on its success, wait for `available` and finish. -/
def rds_after_first_wait (env : RdsEnv) (instance_name : String) (engine : RdsEngine)
    (password : String) (fuel : Nat)
    (w1 : RdsOutcome (DbInstanceM × Nat) × List RdsEv) :
    RdsOutcome DatabaseResponse × List RdsEv :=
  match w1.1 with
  | .ok (_, idx) =>
      let fin := rds_finish env instance_name engine password fuel idx
      (fin.1, w1.2 ++ fin.2)
  | .fail e => (.fail e, w1.2)
  | .panicked m => (.panicked m, w1.2)
  | .hang => (.hang, w1.2)

/-- The database name inside a created RDS instance: the engine display
string is used for both the engine and the database name, except that for
MySQL the engine name is an invalid database name, so `msql` is used. -/
def rds_db_name : RdsEngine → String
  | .mysql => "msql"
  | e => e.toStr

/-- Embedding of `request_aws_rds`: attempt `ModifyDBInstance` with the
fresh password; on success poll for `resetting-master-credentials`; exactly
on `DbInstanceNotFoundFault` create the instance with the fixed parameter
set (database name `msql` for MySQL, the engine string otherwise) and poll
for `creating`; any other service error or any non-service SDK failure is a
`Plain` error.  Then poll for `available` and build the response. -/
def request_aws_rds (project_name : String) (engine : RdsEngine) (password : String)
    (env : RdsEnv) (fuel : Nat) : RdsOutcome DatabaseResponse × List RdsEv :=
  let instance_name := project_name ++ "-" ++ engine.toStr
  match env.modifyResult instance_name password with
  | .ok _ =>
      let r := rds_after_first_wait env instance_name engine password fuel
        (wait_for_instance env instance_name "resetting-master-credentials" fuel 0)
      (r.1, .modify instance_name password :: r.2)
  | .error (.serviceError (.dbInstanceNotFoundFault _)) =>
      let params : CreateParams :=
        ⟨instance_name, MASTER_USERNAME, password, engine.toStr, AWS_RDS_CLASS,
         20, 0, true, rds_db_name engine, some RDS_SUBNET_GROUP⟩
      match env.createResult params with
      | .error e =>
          (.fail (.CreateRDSInstance e),
           [.modify instance_name password, .create params])
      | .ok _ =>
          let r := rds_after_first_wait env instance_name engine password fuel
            (wait_for_instance env instance_name "creating" fuel 0)
          (r.1, .modify instance_name password :: .create params :: r.2)
  | .error (.serviceError (.other m)) =>
      (.fail (.Plain ("got unexpected error from AWS RDS service: " ++ m)),
       [.modify instance_name password])
  | .error (.constructionFailure m) =>
      (.fail (.Plain ("got unexpected error from AWS during API call: " ++ m)),
       [.modify instance_name password])
  | .error (.timeoutError m) =>
      (.fail (.Plain ("got unexpected error from AWS during API call: " ++ m)),
       [.modify instance_name password])
  | .error (.dispatchFailure m) =>
      (.fail (.Plain ("got unexpected error from AWS during API call: " ++ m)),
       [.modify instance_name password])
  | .error (.responseError m) =>
      (.fail (.Plain ("got unexpected error from AWS during API call: " ++ m)),
       [.modify instance_name password])

/-! ## Theorems -/

/-! ## Lemmas about the derived token (claim C1) -/

theorem beBytes_length : ∀ (k n : Nat), (beBytes k n).length = k := by
  intro k
  induction k with
  | zero => intro n; rfl
  | succ k ih => intro n; simp [beBytes, ih]

theorem beBytes_lt : ∀ (k n : Nat), ∀ x ∈ beBytes k n, x < 256 := by
  intro k
  induction k with
  | zero => intro n x hx; simp [beBytes] at hx
  | succ k ih =>
      intro n x hx
      simp only [beBytes, List.mem_append, List.mem_singleton] at hx
      rcases hx with hx | hx
      · exact ih _ x hx
      · subst hx; exact Nat.mod_lt _ (by omega)

theorem digestBytes_length (st : H8) : (digestBytes st).length = 32 := by
  simp [digestBytes, beBytes_length]

theorem digestBytes_lt (st : H8) : ∀ x ∈ digestBytes st, x < 256 := by
  intro x hx
  simp only [digestBytes, List.mem_append] at hx
  rcases hx with ((((((hx | hx) | hx) | hx) | hx) | hx) | hx) | hx <;>
    exact beBytes_lt _ _ x hx

theorem sha256_length (msg : List Nat) : (sha256 msg).length = 32 :=
  digestBytes_length _

theorem sha256_lt (msg : List Nat) : ∀ x ∈ sha256 msg, x < 256 :=
  digestBytes_lt _

theorem b64ch_mem : ∀ n, n < 64 → b64ch n ∈ alphabetChars := by decide

theorem b64chVal_b64ch : ∀ n, n < 64 → b64chVal (b64ch n) = n := by decide

theorem b64url_length : ∀ bs : List Nat,
    (b64url bs).length = 4 * (bs.length / 3) +
      (if bs.length % 3 = 0 then 0 else bs.length % 3 + 1)
  | [] => by simp [b64url]
  | [a] => by simp [b64url]
  | [a, b] => by simp [b64url]
  | a :: b :: c :: rest => by
      have ih := b64url_length rest
      simp only [b64url, List.length_cons, ih]
      have h3 : (rest.length + 1 + 1 + 1) / 3 = rest.length / 3 + 1 := by omega
      have h4 : (rest.length + 1 + 1 + 1) % 3 = rest.length % 3 := by omega
      rw [h3, h4]
      by_cases h : rest.length % 3 = 0 <;> simp [h] <;> omega

theorem b64url_mem : ∀ bs : List Nat, (∀ x ∈ bs, x < 256) →
    ∀ ch ∈ b64url bs, ch ∈ alphabetChars
  | [], _ => by simp [b64url]
  | [a], h => by
      have ha : a < 256 := h a (by simp)
      simp only [b64url, List.mem_cons, List.not_mem_nil, or_false]
      rintro ch (rfl | rfl) <;> exact b64ch_mem _ (by omega)
  | [a, b], h => by
      have ha : a < 256 := h a (by simp)
      have hb : b < 256 := h b (by simp)
      simp only [b64url, List.mem_cons, List.not_mem_nil, or_false]
      rintro ch (rfl | rfl | rfl) <;> exact b64ch_mem _ (by omega)
  | a :: b :: c :: rest, h => by
      have ha : a < 256 := h a (by simp)
      have hb : b < 256 := h b (by simp)
      have hc : c < 256 := h c (by simp)
      have ih := b64url_mem rest (fun x hx => h x (by simp [hx]))
      simp only [b64url, List.mem_cons]
      rintro ch (rfl | rfl | rfl | rfl | hch)
      · exact b64ch_mem _ (by omega)
      · exact b64ch_mem _ (by omega)
      · exact b64ch_mem _ (by omega)
      · exact b64ch_mem _ (by omega)
      · exact ih ch hch

theorem b64_roundtrip : ∀ bs : List Nat, (∀ x ∈ bs, x < 256) →
    b64dec (b64url bs) = bs
  | [], _ => rfl
  | [a], h => by
      have ha : a < 256 := h a (by simp)
      simp only [b64url, b64dec]
      rw [b64chVal_b64ch _ (by omega), b64chVal_b64ch _ (by omega)]
      simp only [List.cons.injEq, and_true]
      omega
  | [a, b], h => by
      have ha : a < 256 := h a (by simp)
      have hb : b < 256 := h b (by simp)
      simp only [b64url, b64dec]
      rw [b64chVal_b64ch _ (by omega), b64chVal_b64ch _ (by omega),
        b64chVal_b64ch _ (by omega)]
      simp only [List.cons.injEq, and_true]
      constructor <;> omega
  | a :: b :: c :: rest, h => by
      have ha : a < 256 := h a (by simp)
      have hb : b < 256 := h b (by simp)
      have hc : c < 256 := h c (by simp)
      have ih := b64_roundtrip rest (fun x hx => h x (by simp [hx]))
      simp only [b64url, b64dec]
      rw [b64chVal_b64ch _ (by omega), b64chVal_b64ch _ (by omega),
        b64chVal_b64ch _ (by omega), b64chVal_b64ch _ (by omega), ih]
      simp only [List.cons.injEq, and_true]
      refine ⟨by omega, by omega, by omega⟩

/-- C1: `get_prefix(p)` is the URL-safe unpadded Base64 encoding of the
SHA-256 digest of the UTF-8 bytes of `p`; it is 43 characters drawn from the
URL-safe Base64 alphabet; it is injective up to SHA-256 collisions (equal
tokens force equal digests); and `get_prefix("hello")` is the documented
constant. -/
theorem claim_C1 :
    (∀ p, getPfx p = String.mk (b64url (sha256 (utf8Bytes p)))) ∧
    (∀ p, (getPfx p).length = 43 ∧ ∀ ch ∈ (getPfx p).data, ch ∈ alphabetChars) ∧
    (∀ p q, getPfx p = getPfx q → sha256 (utf8Bytes p) = sha256 (utf8Bytes q)) ∧
    getPfx "hello" = "LPJNul-wow4m6DsqxbninhsWHlwfp0JecwQzYpOLmCQ" := by
  refine ⟨fun p => rfl, fun p => ⟨?_, ?_⟩, ?_, by decide⟩
  · show (b64url (sha256 (utf8Bytes p))).length = 43
    rw [b64url_length, sha256_length]
    norm_num
  · show ∀ ch ∈ b64url (sha256 (utf8Bytes p)), ch ∈ alphabetChars
    exact b64url_mem _ (sha256_lt _)
  · intro p q hpq
    have hdata : b64url (sha256 (utf8Bytes p)) = b64url (sha256 (utf8Bytes q)) :=
      congrArg String.data hpq
    have h1 := b64_roundtrip (sha256 (utf8Bytes p)) (sha256_lt _)
    have h2 := b64_roundtrip (sha256 (utf8Bytes q)) (sha256_lt _)
    rw [← h1, ← h2, hdata]

/-- Witness for C1: the hypotheses of the conjuncts are discharged at
concrete inputs. -/
theorem claim_C1_witness :
    sha256 (utf8Bytes "ab") = sha256 (utf8Bytes "ab") ∧ 'L' ∈ alphabetChars :=
  ⟨claim_C1.2.2.1 "ab" "ab" rfl, (claim_C1.2.1 "hello").2 'L' (by decide)⟩

/-- C2: each of the four guarded RPC handlers fails with an internal status
when the request carries no claim, fails with permission-denied when the claim
lacks `ResourcesWrite`, and runs the dispatched operation (returning its
result and its state effects) exactly when a claim with `ResourcesWrite` is
present. -/
theorem claim_C2 :
    ∀ (σ : Type) (s : σ)
      (rsdb : String → SharedEngine → σ → Except Error DatabaseResponse × σ)
      (rrds : String → RdsEngine → σ → Except Error DatabaseResponse × σ)
      (dsdb : String → SharedEngine → σ → Except Error DatabaseDeletionResponse × σ)
      (drds : String → RdsEngine → σ → Except Error DatabaseDeletionResponse × σ)
      (rdyn : String → σ → Except Error DynamoDbResponse × σ)
      (ddyn : String → σ → Except Error DynamoDbDeletionResponse × σ)
      (dreq : Request DatabaseRequest) (yreq : Request DynamoDbRequest),
    (dreq.claim = none →
      provision_database rsdb rrds dreq s =
        (.error (Status.internal "could not get claim"), s) ∧
      delete_database dsdb drds dreq s =
        (.error (Status.internal "could not get claim"), s)) ∧
    (yreq.claim = none →
      provision_dynamo_db rdyn yreq s =
        (.error (Status.internal "could not get claim"), s) ∧
      delete_dynamo_db ddyn yreq s =
        (.error (Status.internal "could not get claim"), s)) ∧
    (∀ c, dreq.claim = some c → Scope.ResourcesWrite ∉ c.scopes →
      provision_database rsdb rrds dreq s =
        (.error (Status.permissionDenied "does not have resource allocation scope"), s) ∧
      delete_database dsdb drds dreq s =
        (.error (Status.permissionDenied "does not have resource allocation scope"), s)) ∧
    (∀ c, yreq.claim = some c → Scope.ResourcesWrite ∉ c.scopes →
      provision_dynamo_db rdyn yreq s =
        (.error (Status.permissionDenied "does not have resource allocation scope"), s) ∧
      delete_dynamo_db ddyn yreq s =
        (.error (Status.permissionDenied "does not have resource allocation scope"), s)) ∧
    (∀ c, dreq.claim = some c → Scope.ResourcesWrite ∈ c.scopes →
      provision_database rsdb rrds dreq s =
        ((dispatch_database rsdb rrds dreq.inner s).1.mapError statusOfError,
         (dispatch_database rsdb rrds dreq.inner s).2) ∧
      delete_database dsdb drds dreq s =
        ((dispatch_database_delete dsdb drds dreq.inner s).1.mapError statusOfError,
         (dispatch_database_delete dsdb drds dreq.inner s).2)) ∧
    (∀ c, yreq.claim = some c → Scope.ResourcesWrite ∈ c.scopes →
      provision_dynamo_db rdyn yreq s =
        ((rdyn yreq.inner.project_name s).1.mapError statusOfError,
         (rdyn yreq.inner.project_name s).2) ∧
      delete_dynamo_db ddyn yreq s =
        ((ddyn yreq.inner.project_name s).1.mapError statusOfError,
         (ddyn yreq.inner.project_name s).2)) := by
  intro σ s rsdb rrds dsdb drds rdyn ddyn dreq yreq
  refine ⟨fun h => ?_, fun h => ?_, fun c h hn => ?_, fun c h hn => ?_,
    fun c h hm => ?_, fun c h hm => ?_⟩ <;>
    simp [provision_database, delete_database, provision_dynamo_db,
      delete_dynamo_db, verify_claim, h, Status.internal, Status.permissionDenied]
  · simp [hn]
  · simp [hn]
  · simp [hm]
  · simp [hm]

/-- Witness for C2: the gating behaviour at concrete requests and drivers. -/
theorem claim_C2_witness :
    provision_database (σ := Unit) (fun _ _ s => (.error (.Plain "x"), s))
        (fun _ _ s => (.error (.Plain "x"), s))
        ⟨none, ⟨"p", .shared .postgres⟩⟩ () =
      (.error (Status.internal "could not get claim"), ()) ∧
    provision_database (σ := Unit) (fun _ _ s => (.error (.Plain "x"), s))
        (fun _ _ s => (.error (.Plain "x"), s))
        ⟨some ⟨[.OtherScope 0]⟩, ⟨"p", .shared .postgres⟩⟩ () =
      (.error (Status.permissionDenied "does not have resource allocation scope"), ()) ∧
    provision_dynamo_db (σ := Unit) (fun _ s => (.error (.Plain "x"), s))
        ⟨some ⟨[.ResourcesWrite]⟩, ⟨"p"⟩⟩ () =
      (.error (statusOfError (.Plain "x")), ()) :=
  ⟨((claim_C2 Unit () (fun _ _ s => (.error (.Plain "x"), s))
      (fun _ _ s => (.error (.Plain "x"), s)) (fun _ _ s => (.ok ⟨⟩, s))
      (fun _ _ s => (.ok ⟨⟩, s)) (fun _ s => (.error (.Plain "x"), s))
      (fun _ s => (.ok ⟨⟩, s)) ⟨none, ⟨"p", .shared .postgres⟩⟩
      ⟨some ⟨[.ResourcesWrite]⟩, ⟨"p"⟩⟩).1 rfl).1,
   ((claim_C2 Unit () (fun _ _ s => (.error (.Plain "x"), s))
      (fun _ _ s => (.error (.Plain "x"), s)) (fun _ _ s => (.ok ⟨⟩, s))
      (fun _ _ s => (.ok ⟨⟩, s)) (fun _ s => (.error (.Plain "x"), s))
      (fun _ s => (.ok ⟨⟩, s)) ⟨some ⟨[.OtherScope 0]⟩, ⟨"p", .shared .postgres⟩⟩
      ⟨some ⟨[.ResourcesWrite]⟩, ⟨"p"⟩⟩).2.2.1 ⟨[.OtherScope 0]⟩ rfl (by decide)).1,
   ((claim_C2 Unit () (fun _ _ s => (.error (.Plain "x"), s))
      (fun _ _ s => (.error (.Plain "x"), s)) (fun _ _ s => (.ok ⟨⟩, s))
      (fun _ _ s => (.ok ⟨⟩, s)) (fun _ s => (.error (.Plain "x"), s))
      (fun _ s => (.ok ⟨⟩, s)) ⟨none, ⟨"p", .shared .postgres⟩⟩
      ⟨some ⟨[.ResourcesWrite]⟩, ⟨"p"⟩⟩).2.2.2.2.2 ⟨[.ResourcesWrite]⟩ rfl (by decide)).1⟩

/-- C3: shared-Postgres provisioning first queries `pg_roles` for
`user-{project}`; if no role exists it issues the exact `CREATE ROLE` text,
and if one exists the exact `ALTER ROLE` text, always with the freshly drawn
password; calling it twice yields the same username and database name, and
the second call rotates the password via `ALTER ROLE`. -/
theorem claim_C3 :
    ∀ (cfg : ProvConfig) (w : SharedDbWorld) (project_name p1 p2 : String),
    let username := "user-" ++ project_name
    let r1 := request_shared_db cfg w project_name .postgres p1
    let r2 := request_shared_db cfg r1.2.1 project_name .postgres p2
    (r1.2.2.head? = some ⟨"SELECT rolname FROM pg_roles WHERE rolname = $1", [username]⟩) ∧
    (username ∉ w.pg.roles →
      (⟨"CREATE ROLE \"" ++ username ++ "\" WITH LOGIN PASSWORD \x27" ++ p1 ++ "\x27",
        []⟩ : SqlQuery) ∈ r1.2.2) ∧
    (username ∈ w.pg.roles →
      (⟨"ALTER ROLE \"" ++ username ++ "\" WITH LOGIN PASSWORD \x27" ++ p1 ++ "\x27",
        []⟩ : SqlQuery) ∈ r1.2.2) ∧
    r1.1.username = r2.1.username ∧
    r1.1.database_name = r2.1.database_name ∧
    r1.1.password = p1 ∧ r2.1.password = p2 ∧
    (⟨"ALTER ROLE \"" ++ username ++ "\" WITH LOGIN PASSWORD \x27" ++ p2 ++ "\x27",
      []⟩ : SqlQuery) ∈ r2.2.2 := by
  intro cfg w project_name p1 p2
  by_cases hrole : ("user-" ++ project_name) ∈ w.pg.roles <;>
    by_cases hdb : ("db-" ++ project_name) ∈ w.pg.dbs <;>
    simp [request_shared_db, shared_pg_role, shared_pg, hrole, hdb]

/-- Witness for C3: both branches of the role probe at concrete worlds. -/
theorem claim_C3_witness :
    (⟨"CREATE ROLE \"user-p\" WITH LOGIN PASSWORD \x27pw1\x27", []⟩ : SqlQuery) ∈
      (request_shared_db ⟨"f", "i", "m"⟩ ⟨⟨[], []⟩, ⟨[]⟩⟩ "p" .postgres "pw1").2.2 ∧
    (⟨"ALTER ROLE \"user-p\" WITH LOGIN PASSWORD \x27pw1\x27", []⟩ : SqlQuery) ∈
      (request_shared_db ⟨"f", "i", "m"⟩ ⟨⟨["user-p"], []⟩, ⟨[]⟩⟩ "p" .postgres "pw1").2.2 :=
  ⟨(claim_C3 ⟨"f", "i", "m"⟩ ⟨⟨[], []⟩, ⟨[]⟩⟩ "p" "pw1" "pw2").2.1 (by decide),
   (claim_C3 ⟨"f", "i", "m"⟩ ⟨⟨["user-p"], []⟩, ⟨[]⟩⟩ "p" "pw1" "pw2").2.2.1 (by decide)⟩

/-- C6: shared-Postgres deletion issues `DROP DATABASE "db-{project}"` and
then `DROP ROLE IF EXISTS "user-{project}"`; a failing database drop is
reported under the `DeleteRole` kind and a failing role drop under the
`DeleteDB` kind (the swap is what the code does). -/
theorem claim_C6 :
    ∀ (exec : String → Except String Unit) (project_name : String),
    ((delete_pg exec project_name).2.head? =
      some ("DROP DATABASE \"" ++ ("db-" ++ project_name) ++ "\";")) ∧
    (exec ("DROP DATABASE \"" ++ ("db-" ++ project_name) ++ "\";") = .ok () →
      (delete_pg exec project_name).2 =
        ["DROP DATABASE \"" ++ ("db-" ++ project_name) ++ "\";",
         "DROP ROLE IF EXISTS \"" ++ ("user-" ++ project_name) ++ "\""]) ∧
    (∀ e, exec ("DROP DATABASE \"" ++ ("db-" ++ project_name) ++ "\";") = .error e →
      (delete_pg exec project_name).1 = .error (.DeleteRole e)) ∧
    (∀ e, exec ("DROP DATABASE \"" ++ ("db-" ++ project_name) ++ "\";") = .ok () →
      exec ("DROP ROLE IF EXISTS \"" ++ ("user-" ++ project_name) ++ "\"") = .error e →
      (delete_pg exec project_name).1 = .error (.DeleteDB e)) := by
  intro exec project_name
  refine ⟨?_, fun h => ?_, fun e h => ?_, fun e h1 h2 => ?_⟩
  · simp only [delete_pg]
    cases hd : exec ("DROP DATABASE \"" ++ ("db-" ++ project_name) ++ "\";")
    · simp
    · cases hr : exec ("DROP ROLE IF EXISTS \"" ++ ("user-" ++ project_name) ++ "\"") <;>
        simp
  · simp only [delete_pg]
    rw [h]
    cases hr : exec ("DROP ROLE IF EXISTS \"" ++ ("user-" ++ project_name) ++ "\"") <;>
      simp
  · simp only [delete_pg]
    rw [h]
  · simp only [delete_pg]
    rw [h1, h2]

/-- Witness for C6: a database drop that fails with "boom" is reported as
`DeleteRole`, and a role drop that fails with "boom" as `DeleteDB`. -/
theorem claim_C6_witness :
    (delete_pg (fun q => if q = "DROP DATABASE \"" ++ ("db-" ++ "p") ++ "\";"
        then .error "boom" else .ok ()) "p").1 = .error (.DeleteRole "boom") ∧
    (delete_pg (fun q => if q = "DROP ROLE IF EXISTS \"" ++ ("user-" ++ "p") ++ "\""
        then .error "boom" else .ok ()) "p").1 = .error (.DeleteDB "boom") :=
  ⟨(claim_C6 (fun q => if q = "DROP DATABASE \"" ++ ("db-" ++ "p") ++ "\";"
      then .error "boom" else .ok ()) "p").2.2.1 "boom" (by rfl),
   (claim_C6 (fun q => if q = "DROP ROLE IF EXISTS \"" ++ ("user-" ++ "p") ++ "\""
      then .error "boom" else .ok ()) "p").2.2.2 "boom" (by rfl) (by rfl)⟩

theorem splitNlChars_no_nl : ∀ a : List Char, '\n' ∉ a → splitNlChars a = [a] := by
  intro a
  induction a with
  | nil => intro h; rfl
  | cons c cs ih =>
      intro h
      have hc : c ≠ '\n' := fun hc => h (by simp [hc])
      have := ih (fun hm => h (by simp [hm]))
      simp [splitNlChars, hc, this]

theorem splitNlChars_append : ∀ a b : List Char, '\n' ∉ a →
    splitNlChars (a ++ '\n' :: b) = a :: splitNlChars b := by
  intro a
  induction a with
  | nil => intro b h; simp [splitNlChars]
  | cons c cs ih =>
      intro b h
      have hc : c ≠ '\n' := fun hc => h (by simp [hc])
      have := ih b (fun hm => h (by simp [hm]))
      simp [splitNlChars, hc, this]

theorem rustLines_pair (id secret : String) (h1 : '\n' ∉ id.data)
    (h2 : '\n' ∉ secret.data) (h3 : id.data.getLast? ≠ some '\r')
    (h4 : secret.data ≠ []) : rustLines (id ++ "\n" ++ secret) = [id, secret] := by
  obtain ⟨l1⟩ := id
  obtain ⟨l2⟩ := secret
  have hdata : (String.mk l1 ++ "\n" ++ String.mk l2).data = l1 ++ '\n' :: l2 := by
    show (l1 ++ ['\n']) ++ l2 = l1 ++ '\n' :: l2
    simp
  simp only [rustLines, hdata]
  rw [splitNlChars_append l1 l2 h1, splitNlChars_no_nl l2 h2]
  simp only [List.reverse_cons, List.reverse_nil, List.nil_append, List.reverse_singleton]
  simp only [List.singleton_append]
  rw [if_neg h4]
  simp [stripCRChars, h3]

/-- C9 counterexample: saving the pair `("A\nB", "C")` and reading it back
yields `some ("A", "B")`, not the pair that was saved. -/
theorem claim_C9_counterexample :
    get_saved_access_key ⟨"P", "d/"⟩
      (save_access_key ⟨"P", "d/"⟩
        ⟨fun _ => none, [], [], [], [], [], "a", none⟩ "A\nB" "C") ≠
    some ("A\nB", "C") := by decide

/-- C9 (amended): for every access-key pair in which neither component
contains a newline, the ID does not end in a carriage return and the secret
is nonempty, saving then reading returns exactly the pair saved; and reading
after a successful `delete_saved_access_key` yields `none`. -/
theorem claim_C9 :
    (∀ (h : HandlerCfg) (w : DynamoWorld) (id secret : String),
      '\n' ∉ id.data → id.data.getLast? ≠ some '\r' → '\n' ∉ secret.data →
      secret.data ≠ [] →
      get_saved_access_key h (save_access_key h w id secret) = some (id, secret)) ∧
    (∀ (h : HandlerCfg) (w w' : DynamoWorld),
      delete_saved_access_key h w = .ok w' → get_saved_access_key h w' = none) := by
  constructor
  · intro h w id secret h1 h3 h2 h4
    simp only [get_saved_access_key, save_access_key, if_pos]
    rw [rustLines_pair id secret h1 h2 h3 h4]
  · intro h w w' hdel
    simp only [delete_saved_access_key] at hdel
    cases hf : w.files (get_access_key_file_name h) with
    | none => rw [hf] at hdel; exact absurd hdel (by simp)
    | some c =>
        rw [hf] at hdel
        simp only [Except.ok.injEq] at hdel
        subst hdel
        simp [get_saved_access_key]

/-- Witness for C9: the round trip at the concrete pair `("AKID","SECRET")`
and the delete at a world holding that file. -/
theorem claim_C9_witness :
    get_saved_access_key ⟨"P", "d/"⟩
      (save_access_key ⟨"P", "d/"⟩
        ⟨fun _ => none, [], [], [], [], [], "a", none⟩ "AKID" "SECRET") =
      some ("AKID", "SECRET") ∧
    get_saved_access_key ⟨"P", "d/"⟩
      ((delete_saved_access_key ⟨"P", "d/"⟩
          ⟨fun n => if n = get_access_key_file_name ⟨"P", "d/"⟩ then some "x\ny" else none,
           [], [], [], [], [], "a", none⟩).toOption.getD
        ⟨fun _ => none, [], [], [], [], [], "a", none⟩) = none :=
  ⟨claim_C9.1 ⟨"P", "d/"⟩ ⟨fun _ => none, [], [], [], [], [], "a", none⟩
      "AKID" "SECRET" (by decide) (by decide) (by decide) (by decide),
   claim_C9.2 ⟨"P", "d/"⟩
      ⟨fun n => if n = get_access_key_file_name ⟨"P", "d/"⟩ then some "x\ny" else none,
       [], [], [], [], [], "a", none⟩ _ (by rfl)⟩

theorem dynPrep_files (h : HandlerCfg) (w : DynamoWorld) :
    (dynPrep h w).files = w.files := by
  simp only [dynPrep, attach_user_policy, create_iam_identity, create_dynamodb_policy]
  split <;> split <;> rfl

theorem dynPrep_keySupply (h : HandlerCfg) (w : DynamoWorld) :
    (dynPrep h w).keySupply = w.keySupply := by
  simp only [dynPrep, attach_user_policy, create_iam_identity, create_dynamodb_policy]
  split <;> split <;> rfl

theorem dynPrep_region (h : HandlerCfg) (w : DynamoWorld) :
    (dynPrep h w).region = w.region := by
  simp only [dynPrep, attach_user_policy, create_iam_identity, create_dynamodb_policy]
  split <;> split <;> rfl

theorem get_saved_dynPrep (h : HandlerCfg) (w : DynamoWorld) :
    get_saved_access_key h (dynPrep h w) = get_saved_access_key h w := by
  simp only [get_saved_access_key, dynPrep_files]

/-- A successful `get_iam_identity_keys` leaves the returned pair readable
from the file and does not touch the region. -/
theorem giik_ok_props (h : HandlerCfg) (w : DynamoWorld) (id secret : String)
    (w4 : DynamoWorld) (hwf : ∀ k ∈ w.keySupply, WfKey k)
    (hok : get_iam_identity_keys h w = .ok ((id, secret), w4)) :
    get_saved_access_key h w4 = some (id, secret) ∧ w4.region = w.region := by
  simp only [get_iam_identity_keys] at hok
  cases hs : get_saved_access_key h w with
  | some pair =>
      rw [hs] at hok
      simp only [Except.ok.injEq, Prod.mk.injEq] at hok
      obtain ⟨h1, h2⟩ := hok
      subst h2
      refine ⟨?_, rfl⟩
      rw [hs, h1]
  | none =>
      rw [hs] at hok
      cases hk : w.keySupply with
      | nil => rw [hk] at hok; exact absurd hok (by simp)
      | cons kk rest =>
          obtain ⟨a, b⟩ := kk
          rw [hk] at hok
          simp only [Except.ok.injEq, Prod.mk.injEq] at hok
          obtain ⟨⟨ha, hb⟩, hw⟩ := hok
          have hwfk : WfKey (a, b) := hwf _ (by rw [hk]; exact List.mem_cons_self _ _)
          obtain ⟨wf1, wf2, wf3, wf4⟩ := hwfk
          constructor
          · rw [← hw, ← ha, ← hb]
            simp only [get_saved_access_key, save_access_key, if_pos]
            rw [rustLines_pair a b wf1 wf3 wf2 wf4]
          · rw [← hw]
            rfl

/-- C4: the DynamoDB key step first reads `{state_dir}{token}.txt` — a
readable pair is returned with no IAM call and no state change; otherwise the
freshly minted key is persisted as two lines to that file before being
returned; consequently `request_dynamodb` twice returns the same credential
response, the second call served from disk (the key supply is untouched). -/
theorem claim_C4 :
    ∀ (state_dir : String) (w : DynamoWorld) (project_name : String),
    let h : HandlerCfg := ⟨getPfx project_name, state_dir⟩
    (∀ id secret, get_saved_access_key h w = some (id, secret) →
      get_iam_identity_keys h w = .ok ((id, secret), w)) ∧
    (∀ id secret rest, get_saved_access_key h w = none →
      w.keySupply = (id, secret) :: rest →
      get_iam_identity_keys h w =
        .ok ((id, secret),
          save_access_key h
            { w with
              keySupply := rest,
              iamLiveKeys := (get_iam_identity_user_name h, id) :: w.iamLiveKeys }
            id secret) ∧
      (save_access_key h
        { w with
          keySupply := rest,
          iamLiveKeys := (get_iam_identity_user_name h, id) :: w.iamLiveKeys }
        id secret).files (get_access_key_file_name h) =
          some (id ++ "\n" ++ secret)) ∧
    (∀ r1 w1, (∀ k ∈ w.keySupply, WfKey k) →
      request_dynamodb state_dir w project_name = .ok (r1, w1) →
      request_dynamodb state_dir w1 project_name = .ok (r1, dynPrep h w1) ∧
      (dynPrep h w1).keySupply = w1.keySupply) := by
  intro state_dir w project_name h
  refine ⟨fun id secret hs => ?_, fun id secret rest hs hk => ?_, fun r1 w1 hwf hreq => ?_⟩
  · simp only [get_iam_identity_keys, hs]
  · constructor
    · simp only [get_iam_identity_keys, hs, hk]
    · simp only [save_access_key, if_pos]
  · have hwf3 : ∀ k ∈ (dynPrep h w).keySupply, WfKey k := by
      rw [dynPrep_keySupply]; exact hwf
    simp only [request_dynamodb] at hreq ⊢
    cases hg : get_iam_identity_keys h (dynPrep h w) with
    | error e => simp only [hg] at hreq; exact absurd hreq (by simp)
    | ok pr =>
        obtain ⟨⟨id, secret⟩, w4⟩ := pr
        simp only [hg] at hreq
        cases hr : w4.region with
        | none => simp only [hr] at hreq; exact absurd hreq (by simp)
        | some reg =>
            simp only [hr, Except.ok.injEq, Prod.mk.injEq] at hreq
            obtain ⟨hresp, hw1⟩ := hreq
            subst hw1
            obtain ⟨hsaved, hregion⟩ := giik_ok_props h (dynPrep h w) id secret w4 hwf3 hg
            have hsaved2 : get_saved_access_key h (dynPrep h w4) = some (id, secret) := by
              rw [get_saved_dynPrep]; exact hsaved
            have hg2 : get_iam_identity_keys h (dynPrep h w4) =
                .ok ((id, secret), dynPrep h w4) := by
              simp only [get_iam_identity_keys, hsaved2]
            have hr2 : (dynPrep h w4).region = some reg := by
              rw [dynPrep_region]; exact hr
            simp only [hg2, hr2]
            refine ⟨?_, dynPrep_keySupply h w4⟩
            rw [hresp]

/-- Witness for C4: a world with no saved file and one IAM key in supply;
the first request mints the key, the second is served from disk. -/
theorem claim_C4_witness :
    get_iam_identity_keys ⟨getPfx "p", "d/"⟩
        ⟨fun _ => none, [("AKID", "SECRET")], [], [], [], [], "a", some "eu"⟩ =
      .ok (("AKID", "SECRET"),
        save_access_key ⟨getPfx "p", "d/"⟩
          { files := fun _ => none, keySupply := [],
            iamLiveKeys := [(get_iam_identity_user_name ⟨getPfx "p", "d/"⟩, "AKID")],
            iamUsers := [], iamPolicies := [], attachments := [],
            stsAccount := "a", region := some "eu" } "AKID" "SECRET") ∧
    (request_dynamodb "d/"
        ((request_dynamodb "d/"
            ⟨fun _ => none, [("AKID", "SECRET")], [], [], [], [], "a", some "eu"⟩
            "p").toOption.getD
          (⟨"", "", "", "", none⟩,
            ⟨fun _ => none, [], [], [], [], [], "a", none⟩)).2 "p").isOk = true := by
  constructor
  · exact ((claim_C4 "d/" ⟨fun _ => none, [("AKID", "SECRET")], [], [], [], [], "a",
      some "eu"⟩ "p").2.1 "AKID" "SECRET" [] (by rfl) (by rfl)).1
  · have := (claim_C4 "d/"
      ⟨fun _ => none, [("AKID", "SECRET")], [], [], [], [], "a", some "eu"⟩ "p").2.2
      (⟨getPfx "p", "AKID", "SECRET", "eu", none⟩)
      ((request_dynamodb "d/"
          ⟨fun _ => none, [("AKID", "SECRET")], [], [], [], [], "a", some "eu"⟩
          "p").toOption.getD
        (⟨"", "", "", "", none⟩, ⟨fun _ => none, [], [], [], [], [], "a", none⟩)).2
      (by intro k hk; simp at hk; subst hk; exact ⟨by decide, by decide, by decide, by decide⟩)
      (by rfl)
    rw [this.1]
    rfl

/-- C10: on a state with no saved key file, `delete_access_key` first mints a
brand-new IAM access key (consuming the supply) and persists it, then deletes
exactly that key from IAM and removes the file; and `get_saved_access_key`
returns `none` (not an error) for a missing file or a file with fewer than
two lines. -/
theorem claim_C10 :
    ∀ (h : HandlerCfg) (w : DynamoWorld) (id secret : String)
      (rest : List (String × String)),
    (w.files (get_access_key_file_name h) = none → w.keySupply = (id, secret) :: rest →
      delete_access_key h w = .ok ((delete_access_key h w).toOption.getD w) ∧
      ((delete_access_key h w).toOption.getD w).keySupply = rest ∧
      ((delete_access_key h w).toOption.getD w).files (get_access_key_file_name h) = none ∧
      ((delete_access_key h w).toOption.getD w).iamLiveKeys = w.iamLiveKeys) ∧
    (w.files (get_access_key_file_name h) = none → get_saved_access_key h w = none) ∧
    (∀ c, w.files (get_access_key_file_name h) = some c → (rustLines c).length < 2 →
      get_saved_access_key h w = none) := by
  intro h w id secret rest
  refine ⟨fun hf hk => ?_, fun hf => ?_, fun c hf hlen => ?_⟩
  · have hsaved : get_saved_access_key h w = none := by
      simp only [get_saved_access_key, hf]
    have hdel : delete_access_key h w =
        .ok { w with
              keySupply := rest,
              files := fun n => if n = get_access_key_file_name h then none
                else (save_access_key h
                  { w with
                    keySupply := rest,
                    iamLiveKeys :=
                      (get_iam_identity_user_name h, id) :: w.iamLiveKeys }
                  id secret).files n } := by
      simp only [delete_access_key, get_iam_identity_keys, hsaved, hk]
      have hmem : (get_iam_identity_user_name h, id) ∈
          (save_access_key h
            { w with
              keySupply := rest,
              iamLiveKeys := (get_iam_identity_user_name h, id) :: w.iamLiveKeys }
            id secret).iamLiveKeys := by
        simp [save_access_key]
      rw [if_pos hmem]
      simp only [delete_saved_access_key, save_access_key, if_pos]
      simp [List.erase_cons_head]
    rw [hdel]
    refine ⟨rfl, rfl, ?_, rfl⟩
    show (if get_access_key_file_name h = get_access_key_file_name h then (none : Option String)
          else (save_access_key h
            { w with
              keySupply := rest,
              iamLiveKeys := (get_iam_identity_user_name h, id) :: w.iamLiveKeys }
            id secret).files (get_access_key_file_name h)) = none
    rw [if_pos rfl]
  · simp only [get_saved_access_key, hf]
  · simp only [get_saved_access_key, hf]
    cases hl : rustLines c with
    | nil => rfl
    | cons x xs =>
        cases xs with
        | nil => rfl
        | cons y ys =>
            exfalso
            rw [hl] at hlen
            simp only [List.length_cons] at hlen
            omega

/-- Witness for C10: a concrete empty-file world with one key in supply. -/
theorem claim_C10_witness :
    delete_access_key ⟨"P", "d/"⟩
        ⟨fun _ => none, [("AKID", "SECRET")], [("u", "old")], [], [], [], "a", none⟩ =
      .ok ((delete_access_key ⟨"P", "d/"⟩
        ⟨fun _ => none, [("AKID", "SECRET")], [("u", "old")], [], [], [], "a",
          none⟩).toOption.getD
        ⟨fun _ => none, [("AKID", "SECRET")], [("u", "old")], [], [], [], "a", none⟩) ∧
    ((delete_access_key ⟨"P", "d/"⟩
      ⟨fun _ => none, [("AKID", "SECRET")], [("u", "old")], [], [], [], "a",
        none⟩).toOption.getD
      ⟨fun _ => none, [("AKID", "SECRET")], [("u", "old")], [], [], [], "a",
        none⟩).iamLiveKeys = [("u", "old")] := by
  have := (claim_C10 ⟨"P", "d/"⟩
    ⟨fun _ => none, [("AKID", "SECRET")], [("u", "old")], [], [], [], "a", none⟩
    "AKID" "SECRET" []).1 (by rfl) (by rfl)
  exact ⟨this.1, this.2.2.2⟩

theorem not_list_lt_self : ∀ l : List Char, ¬ l < l
  | c :: l, h => by
      cases h with
      | cons htl => exact not_list_lt_self l htl
      | rel hr => exact absurd hr (lt_irrefl c)

theorem list_lt_append_self : ∀ (l : List Char) (c : Char) (cs : List Char),
    l < l ++ c :: cs
  | [], _, _ => List.Lex.nil
  | _ :: l, c, cs => List.Lex.cons (list_lt_append_self l c cs)

theorem procPage_events (pfx : String) : ∀ (names ts : List String)
    (r : List String × List DynEv × Bool), procPage pfx names ts = .ok r →
    r.2.1 = (names.takeWhile (fun n => strStarts n pfx)).map DynEv.deleteTable := by
  intro names
  induction names with
  | nil =>
      intro ts r h
      simp only [procPage, Except.ok.injEq] at h
      subst h
      rfl
  | cons n rest ih =>
      intro ts r h
      simp only [procPage] at h
      by_cases hs : strStarts n pfx = false
      · rw [if_pos hs] at h
        simp only [Except.ok.injEq] at h
        subst h
        simp [List.takeWhile_cons, hs]
      · rw [if_neg hs] at h
        have hs' : strStarts n pfx = true := by
          cases hb : strStarts n pfx
          · exact absurd hb hs
          · rfl
        cases hd : delete_table ts n with
        | error e => simp only [hd] at h; exact absurd h (by simp)
        | ok t1 =>
            simp only [hd] at h
            cases hp : procPage pfx rest t1 with
            | error e => simp only [hp] at h; exact absurd h (by simp)
            | ok r2 =>
                obtain ⟨t2, evs, brk⟩ := r2
                simp only [hp] at h
                simp only [Except.ok.injEq] at h
                subst h
                simp only [List.takeWhile_cons, hs', List.map_cons]
                exact congrArg _ (ih t1 (t2, evs, brk) hp)

theorem delLoop_events (pfx : String) (limit : Nat) : ∀ (fuel : Nat)
    (cursor : Option String) (ts : List String) (r : List String × List DynEv),
    delLoop pfx limit fuel cursor ts = .ok r →
    (∀ n, DynEv.deleteTable n ∈ r.2 → strStarts n pfx = true) ∧
    (∀ c0, cursor = some c0 → r.2.head? = some (.listTables c0)) := by
  intro fuel
  induction fuel with
  | zero =>
      intro cursor ts r h
      cases cursor with
      | none =>
          simp only [delLoop, Except.ok.injEq] at h
          subst h
          exact ⟨by simp, by simp⟩
      | some c => exact absurd h (by simp [delLoop])
  | succ fuel ih =>
      intro cursor ts r h
      cases cursor with
      | none =>
          simp only [delLoop, Except.ok.injEq] at h
          subst h
          exact ⟨by simp, by simp⟩
      | some c =>
          simp only [delLoop] at h
          cases hp : procPage pfx (listTablesPage ts c limit).1 ts with
          | error e => simp only [hp] at h; exact absurd h (by simp)
          | ok r1 =>
              obtain ⟨t1, evs, brk⟩ := r1
              simp only [hp] at h
              have hevs := procPage_events pfx _ _ _ hp
              simp only at hevs
              cases brk with
              | true =>
                  rw [if_pos rfl] at h
                  simp only [Except.ok.injEq] at h
                  subst h
                  refine ⟨fun n hn => ?_, fun c0 hc0 => ?_⟩
                  · simp only [List.mem_cons] at hn
                    rcases hn with hn | hn
                    · exact absurd hn (by simp)
                    · rw [hevs] at hn
                      simp only [List.mem_map] at hn
                      obtain ⟨m, hm, hmn⟩ := hn
                      have hpred := List.mem_takeWhile_imp hm
                      have : m = n := by injection hmn
                      subst this
                      exact hpred
                  · injection hc0 with hc0
                    subst hc0
                    rfl
              | false =>
                  simp only [Bool.false_eq_true, if_false] at h
                  cases hrec : delLoop pfx limit fuel (listTablesPage ts c limit).2 t1 with
                  | error e => simp only [hrec] at h; exact absurd h (by simp)
                  | ok r2 =>
                      obtain ⟨t2, evs2⟩ := r2
                      simp only [hrec] at h
                      simp only [Except.ok.injEq] at h
                      subst h
                      obtain ⟨ihmem, _⟩ := ih _ _ _ hrec
                      refine ⟨fun n hn => ?_, fun c0 hc0 => ?_⟩
                      · simp only [List.mem_cons, List.mem_append] at hn
                        rcases hn with hn | hn | hn
                        · exact absurd hn (by simp)
                        · rw [hevs] at hn
                          simp only [List.mem_map] at hn
                          obtain ⟨m, hm, hmn⟩ := hn
                          have hpred := List.mem_takeWhile_imp hm
                          have : m = n := by injection hmn
                          subst this
                          exact hpred
                        · exact ihmem n hn
                      · injection hc0 with hc0
                        subst hc0
                        rfl

/-- C5: prefix-scoped cleanup seeds the `ListTables` cursor with the token
itself (the first call listed is at the token), deletes, within each page,
exactly the longest leading run of names that begin with the token and stops
the outer loop at the first name that does not, every deleted name begins
with the token, the last call is the unconditional `DeleteTable` of the bare
token, and with exactly the tables `{pfx}1`, `{pfx}2`, `{pfx}` present all
three end up deleted. -/
theorem claim_C5 :
    ∀ (pfx : String) (tables : List String) (limit fuel : Nat),
    (∀ (names ts t : List String) (evs : List DynEv) (brk : Bool),
      procPage pfx names ts = .ok (t, evs, brk) →
      evs = (names.takeWhile (fun n => strStarts n pfx)).map DynEv.deleteTable) ∧
    (∀ (t : List String) (evs : List DynEv),
      delete_dynamodb_tables_by_pfx tables pfx limit fuel = .ok (t, evs) →
      evs.head? = some (.listTables pfx) ∧
      (∀ n, DynEv.deleteTable n ∈ evs → strStarts n pfx = true) ∧
      evs.getLast? = some (.deleteTable pfx)) ∧
    delete_dynamodb_tables_by_pfx [pfx, pfx ++ "1", pfx ++ "2"] pfx 100 4 =
      .ok ([], [.listTables pfx, .deleteTable (pfx ++ "1"), .deleteTable (pfx ++ "2"),
                .deleteTable pfx]) := by
  intro pfx tables limit fuel
  have hself : strStarts pfx pfx = true :=
    List.isPrefixOf_iff_prefix.mpr (List.prefix_refl _)
  refine ⟨fun names ts t evs brk h => procPage_events pfx names ts (t, evs, brk) h,
    fun t evs h => ?_, ?_⟩
  · simp only [delete_dynamodb_tables_by_pfx] at h
    cases hl : delLoop pfx limit fuel (some pfx) tables with
    | error e => simp only [hl] at h; exact absurd h (by simp)
    | ok r0 =>
        obtain ⟨t0, evs0⟩ := r0
        simp only [hl, Except.ok.injEq, Prod.mk.injEq] at h
        obtain ⟨ht, hevs⟩ := h
        subst hevs
        obtain ⟨hmem, hhead⟩ := delLoop_events pfx limit fuel (some pfx) tables (t0, evs0) hl
        have hh := hhead pfx rfl
        refine ⟨?_, fun n hn => ?_, List.getLast?_concat _⟩
        · cases evs0 with
          | nil => simp at hh
          | cons e es =>
              simp only [List.head?_cons, Option.some.injEq] at hh
              subst hh
              rfl
        · rcases List.mem_append.mp hn with hn | hn
          · exact hmem n hn
          · simp only [List.mem_singleton, DynEv.deleteTable.injEq] at hn
            subst hn
            exact hself
  · have hd1 : (pfx ++ "1").data = pfx.data ++ ['1'] := by rw [String.data_append]
    have hd2 : (pfx ++ "2").data = pfx.data ++ ['2'] := by rw [String.data_append]
    have hlt1 : pfx < pfx ++ "1" := by
      rw [String.lt_iff_toList_lt]
      show pfx.data < (pfx ++ "1").data
      rw [hd1]
      exact list_lt_append_self _ _ _
    have hlt2 : pfx < pfx ++ "2" := by
      rw [String.lt_iff_toList_lt]
      show pfx.data < (pfx ++ "2").data
      rw [hd2]
      exact list_lt_append_self _ _ _
    have hne01 : pfx ≠ pfx ++ "1" := by
      intro hh
      have := congrArg String.data hh
      rw [hd1] at this
      simp at this
    have hne02 : pfx ≠ pfx ++ "2" := by
      intro hh
      have := congrArg String.data hh
      rw [hd2] at this
      simp at this
    have hsp1 : strStarts (pfx ++ "1") pfx = true := by
      rw [strStarts, List.isPrefixOf_iff_prefix, hd1]
      exact List.prefix_append _ _
    have hsp2 : strStarts (pfx ++ "2") pfx = true := by
      rw [strStarts, List.isPrefixOf_iff_prefix, hd2]
      exact List.prefix_append _ _
    have hpage : listTablesPage [pfx, pfx ++ "1", pfx ++ "2"] pfx 100 =
        ([pfx ++ "1", pfx ++ "2"], none) := by
      simp only [listTablesPage, List.filter_cons, List.filter_nil, decide_eq_true_eq,
        lt_self_iff_false, hlt1, hlt2, if_true, if_false]
      rw [List.take_of_length_le (by simp)]
      rw [if_pos (by simp)]
    have herase1 : [pfx, pfx ++ "1", pfx ++ "2"].erase (pfx ++ "1") = [pfx, pfx ++ "2"] := by
      simp [List.erase_cons, hne01]
    have herase2 : [pfx, pfx ++ "2"].erase (pfx ++ "2") = [pfx] := by
      simp [List.erase_cons, hne02]
    have hdel1 : delete_table [pfx, pfx ++ "1", pfx ++ "2"] (pfx ++ "1") =
        .ok [pfx, pfx ++ "2"] := by
      simp [delete_table, herase1]
    have hdel2 : delete_table [pfx, pfx ++ "2"] (pfx ++ "2") = .ok [pfx] := by
      simp [delete_table, herase2]
    have hproc : procPage pfx [pfx ++ "1", pfx ++ "2"] [pfx, pfx ++ "1", pfx ++ "2"] =
        .ok ([pfx], [.deleteTable (pfx ++ "1"), .deleteTable (pfx ++ "2")], false) := by
      simp [procPage, hsp1, hsp2, hdel1, hdel2]
    have hloop : delLoop pfx 100 4 (some pfx) [pfx, pfx ++ "1", pfx ++ "2"] =
        .ok ([pfx], [.listTables pfx, .deleteTable (pfx ++ "1"),
                     .deleteTable (pfx ++ "2")]) := by
      simp [delLoop, hpage, hproc]
    simp [delete_dynamodb_tables_by_pfx, hloop, List.erase_cons_head]

/-- Witness for C5: the trace properties at a concrete token and listing. -/
theorem claim_C5_witness :
    ([] : List DynEv) =
      (List.takeWhile (fun n => strStarts n "T") []).map DynEv.deleteTable ∧
    ([DynEv.listTables "T", DynEv.deleteTable ("T" ++ "1"),
      DynEv.deleteTable ("T" ++ "2"),
      DynEv.deleteTable "T"].getLast? = some (DynEv.deleteTable "T")) :=
  ⟨(claim_C5 "T" [] 100 4).1 [] [] [] [] false rfl,
   ((claim_C5 "T" ["T", "T" ++ "1", "T" ++ "2"] 100 4).2.1 []
      [DynEv.listTables "T", DynEv.deleteTable ("T" ++ "1"),
       DynEv.deleteTable ("T" ++ "2"), DynEv.deleteTable "T"]
      (claim_C5 "T" ["T", "T" ++ "1", "T" ++ "2"] 100 4).2.2).2.2⟩

/-- C7 counterexample: a `DeleteDBInstance` call failing with a non-service
SDK error (a timeout) does not abort the operation — `delete_aws_rds`
returns success, contradicting "every other error from the delete call
aborts the operation". -/
theorem claim_C7_counterexample :
    delete_aws_rds "p" .postgres (fun _ => .error (.timeoutError "request timed out")) =
      .ok ⟨⟩ := rfl

/-- C7 (amended): `delete_aws_rds` calls `DeleteDBInstance` on
`{project}-{engine}`; it returns success when the call fails with
`DbInstanceNotFoundFault`; every other **service** error aborts with a
`Plain` error carrying the upstream message; non-service SDK failures
(construction, timeout, dispatch, response) are also swallowed and return
success. -/
theorem claim_C7 :
    ∀ (project_name : String) (engine : RdsEngine)
      (rds_delete : String → Except (SdkError DeleteDBInstanceError) Unit),
    let instance_name := project_name ++ "-" ++ RdsEngine.toStr engine
    (∀ m, rds_delete instance_name =
        .error (.serviceError (.dbInstanceNotFoundFault m)) →
      delete_aws_rds project_name engine rds_delete = .ok ⟨⟩) ∧
    (∀ m, rds_delete instance_name = .error (.serviceError (.other m)) →
      delete_aws_rds project_name engine rds_delete =
        .error (.Plain ("got unexpected error from AWS RDS service: " ++ m))) ∧
    (rds_delete instance_name = .ok () →
      delete_aws_rds project_name engine rds_delete = .ok ⟨⟩) ∧
    (∀ m, rds_delete instance_name = .error (.timeoutError m) →
      delete_aws_rds project_name engine rds_delete = .ok ⟨⟩) ∧
    (∀ m, rds_delete instance_name = .error (.constructionFailure m) →
      delete_aws_rds project_name engine rds_delete = .ok ⟨⟩) ∧
    (∀ m, rds_delete instance_name = .error (.dispatchFailure m) →
      delete_aws_rds project_name engine rds_delete = .ok ⟨⟩) ∧
    (∀ m, rds_delete instance_name = .error (.responseError m) →
      delete_aws_rds project_name engine rds_delete = .ok ⟨⟩) := by
  intro project_name engine rds_delete instance_name
  refine ⟨fun m hm => ?_, fun m hm => ?_, fun hm => ?_, fun m hm => ?_,
    fun m hm => ?_, fun m hm => ?_, fun m hm => ?_⟩ <;>
    simp only [delete_aws_rds, hm] <;> rfl

/-- Witness for C7: the recovery paths (not-found fault, success, and each
non-service SDK failure) and the fatal service-error path at concrete
oracles. -/
theorem claim_C7_witness :
    delete_aws_rds "p" .postgres
        (fun _ => .error (.serviceError (.dbInstanceNotFoundFault "gone"))) = .ok ⟨⟩ ∧
    delete_aws_rds "p" .postgres (fun _ => .error (.serviceError (.other "denied"))) =
      .error (.Plain ("got unexpected error from AWS RDS service: " ++ "denied")) ∧
    delete_aws_rds "p" .postgres (fun _ => .ok ()) = .ok ⟨⟩ ∧
    delete_aws_rds "p" .postgres (fun _ => .error (.constructionFailure "bad conf")) =
      .ok ⟨⟩ ∧
    delete_aws_rds "p" .postgres (fun _ => .error (.dispatchFailure "no route")) =
      .ok ⟨⟩ ∧
    delete_aws_rds "p" .postgres (fun _ => .error (.responseError "bad body")) =
      .ok ⟨⟩ :=
  ⟨(claim_C7 "p" .postgres
      (fun _ => .error (.serviceError (.dbInstanceNotFoundFault "gone")))).1 "gone" rfl,
   (claim_C7 "p" .postgres
      (fun _ => .error (.serviceError (.other "denied")))).2.1 "denied" rfl,
   (claim_C7 "p" .postgres (fun _ => .ok ())).2.2.1 rfl,
   (claim_C7 "p" .postgres
      (fun _ => .error (.constructionFailure "bad conf"))).2.2.2.2.1 "bad conf" rfl,
   (claim_C7 "p" .postgres
      (fun _ => .error (.dispatchFailure "no route"))).2.2.2.2.2.1 "no route" rfl,
   (claim_C7 "p" .postgres
      (fun _ => .error (.responseError "bad body"))).2.2.2.2.2.2 "bad body" rfl⟩

theorem wait_no_create (env : RdsEnv) (name wait_for : String) :
    ∀ (fuel idx : Nat),
    (wait_for_instance env name wait_for fuel idx).2.filter isCreateEv = [] := by
  intro fuel
  induction fuel with
  | zero => intro idx; rfl
  | succ fuel ih =>
      intro idx
      simp only [wait_for_instance]
      cases hd : env.describes idx with
      | error e => simp [isCreateEv]
      | ok inst =>
          by_cases hs : inst.db_instance_status = wait_for
          · simp [hs, isCreateEv]
          · simp [hs, isCreateEv, ih]

theorem rds_finish_no_create (env : RdsEnv) (instance_name : String)
    (engine : RdsEngine) (password : String) (fuel idx : Nat) :
    (rds_finish env instance_name engine password fuel idx).2.filter isCreateEv = [] := by
  simp only [rds_finish]
  cases hw : (wait_for_instance env instance_name "available" fuel idx).1 with
  | ok pr =>
      obtain ⟨⟨st, ep, mu, dn⟩, i⟩ := pr
      simp only [hw]
      cases ep <;> cases mu <;> cases dn <;> simp [wait_no_create]
  | fail e => simp [hw, wait_no_create]
  | panicked m => simp [hw, wait_no_create]
  | hang => simp [hw, wait_no_create]

theorem rds_finish_port (env : RdsEnv) (instance_name : String) (engine : RdsEngine)
    (password : String) (fuel idx : Nat) (resp : DatabaseResponse)
    (h : (rds_finish env instance_name engine password fuel idx).1 = .ok resp) :
    resp.port = engine_to_port engine := by
  simp only [rds_finish] at h
  cases hw : (wait_for_instance env instance_name "available" fuel idx).1 with
  | ok pr =>
      obtain ⟨⟨st, ep, mu, dn⟩, i⟩ := pr
      simp only [hw] at h
      cases ep with
      | none => simp at h
      | some address =>
          cases mu with
          | none => simp at h
          | some username =>
              cases dn with
              | none => simp at h
              | some database_name =>
                  simp only [RdsOutcome.ok.injEq] at h
                  rw [← h]
  | fail e => simp only [hw] at h; exact absurd h (by simp)
  | panicked m => simp only [hw] at h; exact absurd h (by simp)
  | hang => simp only [hw] at h; exact absurd h (by simp)

theorem rds_afw_no_create (env : RdsEnv) (instance_name : String) (engine : RdsEngine)
    (password : String) (fuel : Nat) (w1 : RdsOutcome (DbInstanceM × Nat) × List RdsEv)
    (hw : w1.2.filter isCreateEv = []) :
    (rds_after_first_wait env instance_name engine password fuel w1).2.filter
      isCreateEv = [] := by
  simp only [rds_after_first_wait]
  cases h1 : w1.1 with
  | ok pr =>
      obtain ⟨inst, idx⟩ := pr
      simp [List.filter_append, hw, rds_finish_no_create]
  | fail e => simpa using hw
  | panicked m => simpa using hw
  | hang => simpa using hw

theorem rds_afw_port (env : RdsEnv) (instance_name : String) (engine : RdsEngine)
    (password : String) (fuel : Nat) (w1 : RdsOutcome (DbInstanceM × Nat) × List RdsEv)
    (resp : DatabaseResponse)
    (h : (rds_after_first_wait env instance_name engine password fuel w1).1 = .ok resp) :
    resp.port = engine_to_port engine := by
  simp only [rds_after_first_wait] at h
  cases h1 : w1.1 with
  | ok pr =>
      obtain ⟨inst, idx⟩ := pr
      rw [h1] at h
      exact rds_finish_port env instance_name engine password fuel idx resp h
  | fail e => rw [h1] at h; exact absurd h (by simp)
  | panicked m => rw [h1] at h; exact absurd h (by simp)
  | hang => rw [h1] at h; exact absurd h (by simp)

/-- C8: provisioning first attempts `ModifyDBInstance` on
`{project}-{engine}` with the fresh password; exactly on
`DbInstanceNotFoundFault` a `CreateDBInstance` is issued with master
username `master`, the generated password, the engine string, class
`db.t4g.micro`, 20 GiB allocated storage, backup retention 0, publicly
accessible, subnet group `shuttle_rds`, and database name equal to the
engine string except `msql` for MySQL; the returned port is
`engine_to_port` of the engine, which is 5432 for Postgres and 3306 for
MySQL and MariaDB. -/
theorem claim_C8 :
    ∀ (project_name password : String) (engine : RdsEngine) (env : RdsEnv) (fuel : Nat),
    let instance_name := project_name ++ "-" ++ RdsEngine.toStr engine
    let r := request_aws_rds project_name engine password env fuel
    let params : CreateParams :=
      ⟨instance_name, "master", password, RdsEngine.toStr engine, "db.t4g.micro",
       20, 0, true, rds_db_name engine, some "shuttle_rds"⟩
    (r.2.head? = some (.modify instance_name password)) ∧
    (∀ m, env.modifyResult instance_name password =
        .error (.serviceError (.dbInstanceNotFoundFault m)) →
      r.2.filter isCreateEv = [.create params]) ∧
    ((∀ m, env.modifyResult instance_name password ≠
        .error (.serviceError (.dbInstanceNotFoundFault m))) →
      r.2.filter isCreateEv = []) ∧
    (∀ resp, r.1 = .ok resp → resp.port = engine_to_port engine) ∧
    engine_to_port .postgres = "5432" ∧ engine_to_port .mysql = "3306" ∧
    engine_to_port .mariadb = "3306" ∧
    rds_db_name .mysql = "msql" ∧ rds_db_name .postgres = RdsEngine.toStr .postgres ∧
    rds_db_name .mariadb = RdsEngine.toStr .mariadb := by
  intro project_name password engine env fuel
  cases hm : env.modifyResult (project_name ++ "-" ++ RdsEngine.toStr engine) password with
  | ok u =>
      simp only [request_aws_rds, hm]
      refine ⟨rfl, fun m hmm => absurd hmm (by simp), fun _ => ?_,
        fun resp hresp => ?_, rfl, rfl, rfl, rfl, rfl, rfl⟩
      · have h0 := rds_afw_no_create env (project_name ++ "-" ++ RdsEngine.toStr engine)
          engine password fuel
          (wait_for_instance env (project_name ++ "-" ++ RdsEngine.toStr engine)
            "resetting-master-credentials" fuel 0)
          (wait_no_create _ _ _ _ _)
        simp [isCreateEv, h0]
      · exact rds_afw_port env _ engine password fuel _ resp hresp
  | error se =>
      cases se with
      | serviceError e =>
          cases e with
          | dbInstanceNotFoundFault m0 =>
              simp only [request_aws_rds, hm, MASTER_USERNAME, AWS_RDS_CLASS,
                RDS_SUBNET_GROUP]
              cases hc : env.createResult
                  ⟨project_name ++ "-" ++ RdsEngine.toStr engine, "master", password,
                   RdsEngine.toStr engine, "db.t4g.micro", 20, 0, true,
                   rds_db_name engine, some "shuttle_rds"⟩ with
              | error ce =>
                  simp only [hc]
                  refine ⟨rfl, fun m hmm => ?_, fun hno => ?_,
                    fun resp hresp => absurd hresp (by simp), rfl, rfl, rfl, rfl, rfl, rfl⟩
                  · simp [isCreateEv]
                  · exact absurd rfl (hno m0)
              | ok cu =>
                  simp only [hc]
                  refine ⟨rfl, fun m hmm => ?_, fun hno => ?_,
                    fun resp hresp => ?_, rfl, rfl, rfl, rfl, rfl, rfl⟩
                  · have h0 := rds_afw_no_create env
                      (project_name ++ "-" ++ RdsEngine.toStr engine) engine password fuel
                      (wait_for_instance env
                        (project_name ++ "-" ++ RdsEngine.toStr engine) "creating" fuel 0)
                      (wait_no_create _ _ _ _ _)
                    simp [isCreateEv, h0]
                  · exact absurd rfl (hno m0)
                  · exact rds_afw_port env _ engine password fuel _ resp hresp
          | other m0 =>
              simp only [request_aws_rds, hm]
              exact ⟨rfl, fun m hmm => absurd hmm (by simp), fun _ => by simp [isCreateEv],
                fun resp hresp => absurd hresp (by simp), rfl, rfl, rfl, rfl, rfl, rfl⟩
      | constructionFailure m0 =>
          simp only [request_aws_rds, hm]
          exact ⟨rfl, fun m hmm => absurd hmm (by simp), fun _ => by simp [isCreateEv],
            fun resp hresp => absurd hresp (by simp), rfl, rfl, rfl, rfl, rfl, rfl⟩
      | timeoutError m0 =>
          simp only [request_aws_rds, hm]
          exact ⟨rfl, fun m hmm => absurd hmm (by simp), fun _ => by simp [isCreateEv],
            fun resp hresp => absurd hresp (by simp), rfl, rfl, rfl, rfl, rfl, rfl⟩
      | dispatchFailure m0 =>
          simp only [request_aws_rds, hm]
          exact ⟨rfl, fun m hmm => absurd hmm (by simp), fun _ => by simp [isCreateEv],
            fun resp hresp => absurd hresp (by simp), rfl, rfl, rfl, rfl, rfl, rfl⟩
      | responseError m0 =>
          simp only [request_aws_rds, hm]
          exact ⟨rfl, fun m hmm => absurd hmm (by simp), fun _ => by simp [isCreateEv],
            fun resp hresp => absurd hresp (by simp), rfl, rfl, rfl, rfl, rfl, rfl⟩

/-- Witness for C8: a mysql provision against a not-found modify result
creates the instance with the documented parameters. -/
theorem claim_C8_witness :
    (request_aws_rds "p" .mysql "pw"
        ⟨fun _ _ => .error (.serviceError (.dbInstanceNotFoundFault "nf")),
         fun _ => .error "cap", fun _ => .error "x"⟩ 3).2.filter isCreateEv =
      [.create ⟨"p" ++ "-" ++ RdsEngine.toStr .mysql, "master", "pw",
        RdsEngine.toStr .mysql, "db.t4g.micro", 20, 0, true, rds_db_name .mysql,
        some "shuttle_rds"⟩] :=
  (claim_C8 "p" "pw" .mysql
    ⟨fun _ _ => .error (.serviceError (.dbInstanceNotFoundFault "nf")),
     fun _ => .error "cap", fun _ => .error "x"⟩ 3).2.1 "nf" rfl

end Prov
